import Mathlib

/-!
Verification development for the Reigh debug/recovery tooling.

Shallow embedding of:
- the log pagination engine (`DebugClient.get_logs` in `scripts/debug/client.py`);
- the generation-for-task fallback chain (`DebugClient._get_generation_for_task`);
- the graph assembler (`DebugClient.get_task_info`) and predecessor resolution
  (`DebugClient._get_predecessor_tasks`);
- the recovery engine (`scripts/recover_segments.py`).

Conventions: timestamps are modelled as natural numbers (the Python code compares
ISO-8601 timestamp strings, whose lexicographic order agrees with chronological
order); Python truthiness on optional strings is modelled by `optStr` (both `None`
and the empty string are falsy); the remote store is modelled as explicit data
threaded through the functions, with remote failures as `Except Unit`.
-/

/-- Python truthiness for an optional string: `None` and `""` are falsy.
`optStr s` is `some` exactly when the Python value is truthy. -/
def optStr : Option String → Option String
  | none => none
  | some s => if s.isEmpty then none else some s

theorem optStr_isSome_iff (s : Option String) :
    (optStr s).isSome = true ↔ ∃ t, s = some t ∧ t ≠ "" := by
  cases s with
  | none => simp [optStr]
  | some t =>
    by_cases h : t.isEmpty
    · have ht := (String.isEmpty_iff t).mp h
      subst ht
      show (none : Option String).isSome = true ↔ _
      simp
    · simp only [optStr, if_neg h, Option.isSome_some, true_iff]
      exact ⟨t, rfl, fun he => h ((String.isEmpty_iff t).mpr he)⟩

/-! ## Pagination engine (`DebugClient.get_logs`)

The source pages through `system_logs` in descending timestamp order with a fixed
page size of 1000 and a `max_pages = 100` safety limit.  We model the (already
filtered, descending-ordered) result set held by the server as a list `rows`;
the page request `range(offset, offset + fetch_count - 1)` returns
`(rows.drop offset).take fetchCount`.

The Python loop is `while True` with three `break` conditions; we embed it with
explicit fuel.  A continuing iteration requires a full page and an unmet limit,
which forces `fetchCount = pageSize` and advances `offset` by `pageSize`; the
safety check `offset // PAGE_SIZE >= max_pages` therefore bounds the loop at
101 iterations, so fuel `maxPagesCap + 2 = 102` is never exhausted. -/

def pageSize : Nat := 1000

def maxPagesCap : Nat := 100

/-- `if limit is not None and len(all_logs) >= limit: break` condition. -/
def limitHit (limit : Option Nat) (n : Nat) : Bool :=
  match limit with
  | some l => decide (l ≤ n)
  | none => false

/-- One-to-one embedding of the `while True:` body of `get_logs`.  Returns the
accumulated rows (still in descending order) and the list of per-page requested
fetch counts. -/
def getLogsLoop (rows : List Nat) (limit : Option Nat) :
    Nat → List Nat → Nat → List Nat × List Nat
  | 0, acc, _ => (acc, [])
  | fuel + 1, acc, offset =>
    let fetchCount : Nat :=
      match limit with
      | some l => min pageSize (l - acc.length)
      | none => pageSize
    let page := (rows.drop offset).take fetchCount
    let acc2 := acc ++ page
    if page.length < fetchCount then (acc2, [fetchCount])
    else if limitHit limit acc2.length then (acc2, [fetchCount])
    else if maxPagesCap ≤ offset / pageSize then (acc2, [fetchCount])
    else
      let r := getLogsLoop rows limit fuel acc2 (offset + page.length)
      (r.1, fetchCount :: r.2)

/-- `get_logs`: paginate, then reverse once into ascending chronological order.
First component: the returned `logs`; second: the per-page requested sizes. -/
def getLogs (rows : List Nat) (limit : Option Nat) : List Nat × List Nat :=
  let r := getLogsLoop rows limit (maxPagesCap + 2) [] 0
  (r.1.reverse, r.2)

theorem getLogsLoop_succ (rows : List Nat) (limit : Option Nat) (fuel : Nat)
    (acc : List Nat) (offset : Nat) :
    getLogsLoop rows limit (fuel + 1) acc offset =
      (let fetchCount : Nat :=
        match limit with
        | some l => min pageSize (l - acc.length)
        | none => pageSize
      let page := (rows.drop offset).take fetchCount
      let acc2 := acc ++ page
      if page.length < fetchCount then (acc2, [fetchCount])
      else if limitHit limit acc2.length then (acc2, [fetchCount])
      else if maxPagesCap ≤ offset / pageSize then (acc2, [fetchCount])
      else
        let r := getLogsLoop rows limit fuel acc2 (offset + page.length)
        (r.1, fetchCount :: r.2)) := rfl

/-- With `limit = None` against a source that fills every page, the loop started
at page index `100 - d` accumulates exactly `101_000` rows in total. -/
theorem getLogsLoop_none_full (rows : List Nat) (h : 101000 ≤ rows.length) :
    ∀ d, d ≤ 100 → ∀ acc : List Nat, acc.length = 1000 * (100 - d) →
      (getLogsLoop rows none (d + 2) acc (1000 * (100 - d))).1.length = 101000 := by
  intro d
  induction d with
  | zero =>
    intro _ acc hacc
    rw [getLogsLoop_succ]
    simp only []
    have hpage : ((rows.drop (1000 * (100 - 0))).take pageSize).length = pageSize := by
      simp only [List.length_take, List.length_drop, pageSize]
      omega
    rw [if_neg (by rw [hpage]; exact lt_irrefl _)]
    simp only [limitHit, if_neg Bool.false_ne_true]
    rw [if_pos (by simp only [pageSize, maxPagesCap]; omega)]
    simp only [List.length_append, hacc]
    rw [hpage]
    simp only [pageSize]
  | succ d ih =>
    intro hd acc hacc
    rw [getLogsLoop_succ]
    simp only []
    have hpage : ((rows.drop (1000 * (100 - (d + 1)))).take pageSize).length = pageSize := by
      simp only [List.length_take, List.length_drop, pageSize]
      omega
    rw [if_neg (by rw [hpage]; exact lt_irrefl _)]
    simp only [limitHit, if_neg Bool.false_ne_true]
    rw [if_neg (by simp only [pageSize, maxPagesCap]; omega)]
    have harg : 1000 * (100 - (d + 1)) + ((rows.drop (1000 * (100 - (d + 1)))).take pageSize).length
        = 1000 * (100 - d) := by
      rw [hpage]; simp only [pageSize]; omega
    have hlen : (acc ++ (rows.drop (1000 * (100 - (d + 1)))).take pageSize).length
        = 1000 * (100 - d) := by
      rw [List.length_append, hacc, hpage]; simp only [pageSize]; omega
    rw [harg]
    exact ih (by omega) _ hlen

/-- C2 theorem: with `limit = None` and a source holding at least 101,000 rows
(so every page request up to the safety cut-off returns a full page), `get_logs`
returns 101,000 rows — 101 pages of 1,000, not the documented 100-page /
100,000-row ceiling (`max_pages = 100  # Safety limit: 100k logs max`): the cap
check `offset // PAGE_SIZE >= max_pages` runs before `offset` is advanced, so it
only fires after the 101st page has already been fetched. -/
theorem getLogs_unbounded_returns_101000 (rows : List Nat) (h : 101000 ≤ rows.length) :
    (getLogs rows none).1.length = 101000 := by
  unfold getLogs
  simp only [List.length_reverse]
  have := getLogsLoop_none_full rows h 100 (le_refl _) [] (by simp)
  simpa using this

/-- Witness for `getLogs_unbounded_returns_101000` at the concrete always-full
source `List.replicate 101000 0`. -/
theorem getLogs_unbounded_returns_101000_witness :
    101000 ≤ (List.replicate 101000 (0 : Nat)).length ∧
      (getLogs (List.replicate 101000 (0 : Nat)) none).1.length = 101000 :=
  ⟨by rw [List.length_replicate], getLogs_unbounded_returns_101000 _ (by rw [List.length_replicate])⟩

/-- Step lemma: when the page comes back full, the limit is not yet reached and
the safety cap is not hit, the loop records the request and continues. -/
theorem getLogsLoop_step (rows : List Nat) (limit : Option Nat) (fuel : Nat)
    (acc : List Nat) (offset fetchCount : Nat)
    (hfc : (match limit with
      | some l => min pageSize (l - acc.length)
      | none => pageSize) = fetchCount)
    (hfull : ¬ (((rows.drop offset).take fetchCount).length < fetchCount))
    (hnl : limitHit limit (acc ++ (rows.drop offset).take fetchCount).length = false)
    (hnp : ¬ (maxPagesCap ≤ offset / pageSize)) :
    getLogsLoop rows limit (fuel + 1) acc offset =
      ((getLogsLoop rows limit fuel (acc ++ (rows.drop offset).take fetchCount)
          (offset + ((rows.drop offset).take fetchCount).length)).1,
        fetchCount ::
          (getLogsLoop rows limit fuel (acc ++ (rows.drop offset).take fetchCount)
            (offset + ((rows.drop offset).take fetchCount).length)).2) := by
  rw [getLogsLoop_succ]
  simp only [hfc]
  rw [if_neg hfull, if_neg (by rw [hnl]; exact Bool.false_ne_true), if_neg hnp]

/-- Break lemma: when the page comes back full but the caller's limit is now
reached, the loop stops after recording the request. -/
theorem getLogsLoop_break_limit (rows : List Nat) (limit : Option Nat) (fuel : Nat)
    (acc : List Nat) (offset fetchCount : Nat)
    (hfc : (match limit with
      | some l => min pageSize (l - acc.length)
      | none => pageSize) = fetchCount)
    (hfull : ¬ (((rows.drop offset).take fetchCount).length < fetchCount))
    (hl : limitHit limit (acc ++ (rows.drop offset).take fetchCount).length = true) :
    getLogsLoop rows limit (fuel + 1) acc offset =
      (acc ++ (rows.drop offset).take fetchCount, [fetchCount]) := by
  rw [getLogsLoop_succ]
  simp only [hfc]
  rw [if_neg hfull, if_pos hl]

/-- C6 theorem: with `limit = 2500`, page size 1000 and at least 2500 matching
rows, `get_logs` issues exactly three page requests (1000, 1000, 500 rows),
returns the 2500 most recent rows, and the returned sequence is the single
reversal of the accumulated descending sequence, hence ascending. -/
theorem getLogs_limit2500 (rows : List Nat) (h : 2500 ≤ rows.length)
    (hs : List.Pairwise (· ≥ ·) rows) :
    (getLogs rows (some 2500)).2 = [1000, 1000, 500] ∧
      (getLogs rows (some 2500)).1 = (rows.take 2500).reverse ∧
      (getLogs rows (some 2500)).1.length = 2500 ∧
      List.Pairwise (· ≤ ·) (getLogs rows (some 2500)).1 := by
  have hlen1 : ((rows.drop 0).take 1000).length = 1000 := by
    simp only [List.length_take, List.length_drop]; omega
  have hlen2 : ((rows.drop 1000).take 1000).length = 1000 := by
    simp only [List.length_take, List.length_drop]; omega
  have hlen3 : ((rows.drop 2000).take 500).length = 500 := by
    simp only [List.length_take, List.length_drop]; omega
  have hacc1 : (([] : List Nat) ++ (rows.drop 0).take 1000).length = 1000 := by
    rw [List.nil_append, hlen1]
  have hacc2 : (([] : List Nat) ++ (rows.drop 0).take 1000 ++ (rows.drop 1000).take 1000).length
      = 2000 := by
    rw [List.length_append, hacc1, hlen2]
  have hacc3 : (([] : List Nat) ++ (rows.drop 0).take 1000 ++ (rows.drop 1000).take 1000
      ++ (rows.drop 2000).take 500).length = 2500 := by
    rw [List.length_append, hacc2, hlen3]
  have hloop : getLogsLoop rows (some 2500) (maxPagesCap + 2) [] 0
      = ([] ++ (rows.drop 0).take 1000 ++ (rows.drop 1000).take 1000
          ++ (rows.drop 2000).take 500, [1000, 1000, 500]) := by
    have e1 := getLogsLoop_step rows (some 2500) (maxPagesCap + 1) [] 0 1000
      (by norm_num [pageSize])
      (by rw [hlen1]; exact lt_irrefl _)
      (by rw [hacc1]; norm_num [limitHit])
      (by norm_num [pageSize, maxPagesCap])
    have e2 := getLogsLoop_step rows (some 2500) maxPagesCap
      ([] ++ (rows.drop 0).take 1000) 1000 1000
      (by rw [hacc1]; norm_num [pageSize])
      (by rw [hlen2]; exact lt_irrefl _)
      (by rw [hacc2]; norm_num [limitHit])
      (by norm_num [pageSize, maxPagesCap])
    have e3 := getLogsLoop_break_limit rows (some 2500) (maxPagesCap - 1)
      ([] ++ (rows.drop 0).take 1000 ++ (rows.drop 1000).take 1000) 2000 500
      (by rw [hacc2]; norm_num [pageSize])
      (by rw [hlen3]; exact lt_irrefl _)
      (by rw [hacc3]; norm_num [limitHit])
    rw [hlen1, show (0 : Nat) + 1000 = 1000 from rfl] at e1
    rw [hlen2, show (1000 : Nat) + 1000 = 2000 from rfl] at e2
    rw [show maxPagesCap - 1 + 1 = maxPagesCap from rfl] at e3
    rw [show maxPagesCap + 2 = maxPagesCap + 1 + 1 from rfl, e1, e2, e3]
  have htake : ([] : List Nat) ++ (rows.drop 0).take 1000 ++ (rows.drop 1000).take 1000
      ++ (rows.drop 2000).take 500 = rows.take 2500 := by
    rw [List.nil_append, List.drop_zero]
    rw [show (2500 : Nat) = 2000 + 500 from rfl, List.take_add]
    rw [show (2000 : Nat) = 1000 + 1000 from rfl, List.take_add]
  have hfinal : getLogs rows (some 2500)
      = ((rows.take 2500).reverse, [1000, 1000, 500]) := by
    unfold getLogs
    rw [hloop, htake]
  refine ⟨by rw [hfinal], by rw [hfinal], ?_, ?_⟩
  · rw [hfinal]
    simp only [List.length_reverse, List.length_take]
    omega
  · rw [hfinal]
    simp only []
    rw [List.pairwise_reverse]
    exact List.Pairwise.sublist (List.take_sublist _ _) hs

/-- Witness for `getLogs_limit2500` on the concrete descending source
`(List.range 2500).reverse`. -/
theorem getLogs_limit2500_witness :
    (2500 ≤ ((List.range 2500).reverse).length
        ∧ List.Pairwise (· ≥ ·) ((List.range 2500).reverse))
      ∧ (getLogs ((List.range 2500).reverse) (some 2500)).2 = [1000, 1000, 500] :=
  have hp : List.Pairwise (· ≥ ·) ((List.range 2500).reverse) :=
    List.pairwise_reverse.mpr ((List.pairwise_lt_range 2500).imp fun h => le_of_lt h)
  have hl : 2500 ≤ ((List.range 2500).reverse).length := by
    rw [List.length_reverse, List.length_range]
  ⟨⟨hl, hp⟩, (getLogs_limit2500 _ hl hp).1⟩

/-! ## Query layer: `DebugClient._get_generation_for_task`

The whole body sits in an outer `try`, whose `except` prints and returns `None`.
Method 1 (params `generation_id`) is NOT individually guarded: a remote error in
either of its two store calls propagates to the outer handler.  Methods 2 (RPC)
and 3 (client-side scan of recent generations) each sit in an inner
`try/except: pass`.

Store calls return `Except Unit _`, `.error` modelling a raised remote error. -/

/-- A generation row, as far as the fallback chain inspects it: its id and its
JSONB `tasks` array. -/
structure Gen where
  id : String
  tasks : List String
deriving DecidableEq, Repr

/-- The remote store as seen by `_get_generation_for_task`.
`taskParamsGenId tid` models `tasks.select('params').eq('id', tid)`:
`.ok none` = no row, `.ok (some g)` = a row whose params carry `generation_id = g`
(`g` already passed through truthiness, i.e. `optStr`).
`genById` models `generations.select('*').eq('id', gid)` (`.ok none` = no row).
`rpcGenByTask` models the `get_generation_by_task_id` RPC.
`recentGens` models `generations.select('*').order(created_at desc).limit(100)`. -/
structure GenStore where
  taskParamsGenId : String → Except Unit (Option (Option String))
  genById : String → Except Unit (Option Gen)
  rpcGenByTask : String → Except Unit (List Gen)
  recentGens : Except Unit (List Gen)

/-- Method 1: read `generation_id` from the task's own params and fetch that
generation.  `.ok (some g)` = definite result, `.ok none` = fall through,
`.error` = a raised store error (unguarded in the source). -/
def method1 (st : GenStore) (taskId : String) : Except Unit (Option Gen) := do
  let taskRow ← st.taskParamsGenId taskId
  match taskRow with
  | some (some genId) =>
    let gen ← st.genById genId
    pure gen
  | _ => pure none

/-- Method 2 with its inner `try/except: pass`: RPC, head of the data list;
error or empty data falls through. -/
def method2 (st : GenStore) (taskId : String) : Option Gen :=
  match st.rpcGenByTask taskId with
  | .ok (g :: _) => some g
  | _ => none

/-- Method 3 with its inner `try/except: pass`: scan the most recent
generations client-side for one whose `tasks` array contains the task id. -/
def method3 (st : GenStore) (taskId : String) : Option Gen :=
  match st.recentGens with
  | .ok gens => gens.find? fun g => g.tasks.contains taskId
  | .error _ => none

/-- The body of `_get_generation_for_task` inside the outer `try`: method 1's
error propagates (it is unguarded); methods 2 and 3 cannot raise (their inner
handlers already swallowed errors into `none`). -/
def getGenerationForTaskBody (st : GenStore) (taskId : String) : Except Unit (Option Gen) :=
  match method1 st taskId with
  | .error e => .error e
  | .ok (some g) => .ok (some g)
  | .ok none =>
    match method2 st taskId with
    | some g => .ok (some g)
    | none => .ok (method3 st taskId)

/-- `_get_generation_for_task`: the three methods in order, wrapped in the
outer `try/except` that converts any escaped exception into `None`. -/
def getGenerationForTask (st : GenStore) (taskId : String) : Option Gen :=
  match getGenerationForTaskBody st taskId with
  | .ok r => r
  | .error _ => none

/-- The strategy chain as the spec words it: EVERY strategy falls through to
the next on any failure (including a raised remote error) or empty result. -/
def getGenerationForTaskSpec (st : GenStore) (taskId : String) : Option Gen :=
  match method1 st taskId with
  | .ok (some g) => some g
  | _ =>
    match method2 st taskId with
    | some g => some g
    | none => method3 st taskId

/-- A store on which method 1 raises a remote error while method 2 would
succeed: the code then returns `None` instead of falling through. -/
def genStoreM1Raises : GenStore where
  taskParamsGenId := fun _ => .error ()
  genById := fun _ => .ok none
  rpcGenByTask := fun _ => .ok [⟨"g1", ["t1"]⟩]
  recentGens := .ok []

/-- C3 counterexample: on `genStoreM1Raises` the implementation returns `none`
while the claimed fall-through chain would return generation `g1` via the RPC
strategy, so the claim "falling through to the next strategy on any failure
(including a remote error raised by the earlier strategy)" is false for
strategy 1. -/
theorem getGenerationForTask_not_spec_chain :
    getGenerationForTask genStoreM1Raises "t1" = none ∧
      getGenerationForTaskSpec genStoreM1Raises "t1" = some ⟨"g1", ["t1"]⟩ ∧
      getGenerationForTask genStoreM1Raises "t1"
        ≠ getGenerationForTaskSpec genStoreM1Raises "t1" := by
  refine ⟨rfl, rfl, ?_⟩
  intro h
  rw [show getGenerationForTask genStoreM1Raises "t1" = none from rfl,
    show getGenerationForTaskSpec genStoreM1Raises "t1" = some ⟨"g1", ["t1"]⟩ from rfl] at h
  cases h

/-- C3 amended theorem: the lookup never raises (it is total into `Option`);
an empty result of strategy 1 falls through to strategies 2 and 3, which fall
through to each other on failure or empty result exactly as claimed; but a
remote error raised inside strategy 1 aborts the whole chain and yields `none`
without trying strategies 2 and 3. -/
theorem getGenerationForTask_chain (st : GenStore) (taskId : String) :
    (method1 st taskId = .error () → getGenerationForTask st taskId = none)
      ∧ (∀ g, method1 st taskId = .ok (some g) →
          getGenerationForTask st taskId = some g)
      ∧ (method1 st taskId = .ok none →
          getGenerationForTask st taskId =
            match method2 st taskId with
            | some g => some g
            | none => method3 st taskId) := by
  refine ⟨?_, ?_, ?_⟩
  · intro h
    unfold getGenerationForTask getGenerationForTaskBody
    rw [h]
  · intro g h
    unfold getGenerationForTask getGenerationForTaskBody
    rw [h]
  · intro h
    unfold getGenerationForTask getGenerationForTaskBody
    rw [h]
    cases method2 st taskId <;> rfl

/-- Witness for `getGenerationForTask_chain`: on a store whose method 1 finds
the generation directly, the chain returns it. -/
theorem getGenerationForTask_chain_witness :
    method1 ⟨fun _ => .ok (some (some "g0")),
        fun gid => .ok (some ⟨gid, []⟩), fun _ => .ok [], .ok []⟩ "t0"
      = .ok (some ⟨"g0", []⟩) ∧
    getGenerationForTask ⟨fun _ => .ok (some (some "g0")),
        fun gid => .ok (some ⟨gid, []⟩), fun _ => .ok [], .ok []⟩ "t0"
      = some ⟨"g0", []⟩ :=
  ⟨rfl, (getGenerationForTask_chain _ "t0").2.1 _ rfl⟩

/-! ## Predecessor resolution (`DebugClient._get_predecessor_tasks`)

`dependant_on` is either missing/null, a bare string id (legacy), or a list of
ids (current). -/

inductive DependantOn where
  | null
  | str (s : String)
  | list (l : List String)
deriving DecidableEq, Repr

/-- Python truthiness of the `dependant_on` value (`if not dependant_on`). -/
def DependantOn.truthy : DependantOn → Bool
  | .null => false
  | .str s => !s.isEmpty
  | .list l => !l.isEmpty

/-- The normalization the spec describes: both shapes become a list of ids. -/
def DependantOn.normalize : DependantOn → List String
  | .null => []
  | .str s => [s]
  | .list l => l

/-- A task-summary row (payload opaque beyond its id). -/
structure TaskSummary where
  id : String
deriving DecidableEq, Repr

/-- `_get_task_summary`: a falsy id returns `None` before any store call; the
store call itself is guarded by `try/except`, modelled by the store function
`summary` already returning `Option`. -/
def getTaskSummary (summary : String → Option TaskSummary) (taskId : String) :
    Option TaskSummary :=
  if taskId.isEmpty then none else summary taskId

/-- `_get_predecessor_tasks`: legacy bare-string and current list shapes,
resolving each id and silently dropping unresolvable ones. -/
def getPredecessorTasks (summary : String → Option TaskSummary) (d : DependantOn) :
    List TaskSummary :=
  if !d.truthy then []
  else
    match d with
    | .list l => l.filterMap (getTaskSummary summary)
    | .str s =>
      match getTaskSummary summary s with
      | some t => [t]
      | none => []
    | .null => []

/-- C9 theorem: `_get_predecessor_tasks` accepts both the legacy bare-string
shape and the current list shape; both behave exactly as "normalize to a list,
resolve each id, silently drop unresolvable ids".  A resolvable bare string
yields exactly one summary; a two-element list yields at most two. -/
theorem getPredecessorTasks_normalizes (summary : String → Option TaskSummary) :
    (∀ d, getPredecessorTasks summary d
        = d.normalize.filterMap (getTaskSummary summary))
      ∧ (∀ s t, getTaskSummary summary s = some t →
          getPredecessorTasks summary (.str s) = [t])
      ∧ (∀ a b, (getPredecessorTasks summary (.list [a, b])).length ≤ 2) := by
  have hnorm : ∀ d, getPredecessorTasks summary d
      = d.normalize.filterMap (getTaskSummary summary) := by
    intro d
    cases d with
    | null => rfl
    | str s =>
      by_cases hs : s.isEmpty
      · have hs' := (String.isEmpty_iff s).mp hs
        subst hs'
        rfl
      · simp only [getPredecessorTasks, DependantOn.truthy, hs, Bool.not_false,
          Bool.not_true, Bool.false_eq_true, if_false, DependantOn.normalize,
          List.filterMap]
        unfold getTaskSummary
        rw [if_neg (by simpa using hs)]
        cases summary s <;> rfl
    | list l =>
      cases l with
      | nil => rfl
      | cons a as =>
        simp only [getPredecessorTasks, DependantOn.truthy, DependantOn.normalize]
        rfl
  refine ⟨hnorm, ?_, ?_⟩
  · intro s t h
    rw [hnorm]
    simp only [DependantOn.normalize, List.filterMap, h]
  · intro a b
    rw [hnorm]
    simp only [DependantOn.normalize]
    have : ([a, b].filterMap (getTaskSummary summary)).length ≤ [a, b].length :=
      List.length_filterMap_le _ _
    simpa using this

/-- Witness for `getPredecessorTasks_normalizes`: a store resolving only
`"a"`, queried with the legacy bare-string shape. -/
theorem getPredecessorTasks_normalizes_witness :
    getTaskSummary (fun tid => if tid = "a" then some ⟨"a"⟩ else none) "a" = some ⟨"a"⟩ ∧
      getPredecessorTasks (fun tid => if tid = "a" then some ⟨"a"⟩ else none)
        (.str "a") = [⟨"a"⟩] :=
  ⟨rfl, (getPredecessorTasks_normalizes _).2.1 "a" ⟨"a"⟩ rfl⟩

/-! ## Graph assembler (`DebugClient.get_task_info`)

The task row itself is fetched first; when absent the bare `TaskInfo` is
returned with no relationship sub-fetch attempted.  Payloads our claims never
inspect (log rows, credit rows, variant rows, shot rows, worker row) are
modelled as opaque `Nat`s.  The second component of the result is the trace of
relationship sub-fetches attempted (`_get_*` helper invocations). -/

/-- The fields of the task row that `get_task_info` reads. -/
structure TaskState where
  workerId : Option String
  dependantOn : DependantOn
  taskType : String
  orchestratorTaskId : Option String
  orchestratorTaskIdRef : Option String
  orchestratorRunId : Option String
  runId : Option String
deriving DecidableEq, Repr

/-- Python `a or b` for two optional strings, as used under a truthiness guard:
the combined value is truthy iff either side is, preferring the left. -/
def orElseTruthy (a b : Option String) : Option String :=
  match optStr a with
  | some s => some s
  | none => optStr b

/-- One relationship sub-fetch attempted by `get_task_info`. -/
inductive Fetch where
  | task
  | logs
  | generation
  | worker
  | credits
  | predecessors
  | dependents
  | variants
  | shots
  | orchestrator
  | siblings
  | children
deriving DecidableEq, Repr

/-- The remote store as seen by `get_task_info`. -/
structure DebugStore where
  taskRow : String → Option TaskState
  taskLogs : String → List Nat
  genStore : GenStore
  workerInfo : String → Option Nat
  creditEntries : String → List Nat
  taskSummary : String → Option TaskSummary
  dependentTasks : String → List TaskSummary
  variantsOf : String → List Nat
  shotAssociations : String → List Nat
  runSiblings : String → String → List TaskSummary
  childTasks : String → List TaskSummary

/-- The assembled view (`TaskInfo` dataclass), with its dataclass defaults. -/
structure TaskInfo where
  taskId : String
  state : Option TaskState
  logs : List Nat
  generation : Option Gen := none
  variants : List Nat := []
  worker : Option Nat := none
  creditEntries : List Nat := []
  orchestratorTask : Option TaskSummary := none
  childTasks : List TaskSummary := []
  runSiblings : List TaskSummary := []
  dependentTasks : List TaskSummary := []
  predecessorTasks : List TaskSummary := []
  shotAssociations : List Nat := []
deriving DecidableEq, Repr

/-- `_get_worker_info`: falsy worker id returns `None` before any store call. -/
def getWorkerInfo (st : DebugStore) (workerId : Option String) : Option Nat :=
  match optStr workerId with
  | none => none
  | some w => st.workerInfo w

/-- `get_task_info`: assemble the complete task neighborhood.  Returns the view
together with the trace of relationship sub-fetches attempted. -/
def getTaskInfo (st : DebugStore) (taskId : String) : TaskInfo × List Fetch :=
  match st.taskRow taskId with
  | none => ({ taskId := taskId, state := none, logs := [] }, [.task])
  | some state =>
    let generation := getGenerationForTask st.genStore taskId
    let variantsShots :
        (Option Gen → List Nat) × (Option Gen → List Nat) × List Fetch :=
      match generation with
      | some g => (fun _ => st.variantsOf g.id, fun _ => st.shotAssociations g.id,
          [.variants, .shots])
      | none => (fun _ => [], fun _ => [], [])
    let orchInfo : Option TaskSummary × List TaskSummary × List TaskSummary × List Fetch :=
      if state.taskType = "travel_segment" ∨ state.taskType = "join_clips_segment" then
        let orchPart : Option TaskSummary × List Fetch :=
          match orElseTruthy state.orchestratorTaskId state.orchestratorTaskIdRef with
          | some oid => (getTaskSummary st.taskSummary oid, [.orchestrator])
          | none => (none, [])
        let sibPart : List TaskSummary × List Fetch :=
          match optStr state.orchestratorRunId with
          | some rid => (st.runSiblings rid taskId, [.siblings])
          | none => ([], [])
        (orchPart.1, [], sibPart.1, orchPart.2 ++ sibPart.2)
      else if state.taskType = "travel_orchestrator"
          ∨ state.taskType = "join_clips_orchestrator" then
        match optStr state.runId with
        | some rid => (none, st.childTasks rid, [], [.children])
        | none => (none, [], [], [])
      else (none, [], [], [])
    ({ taskId := taskId
       state := some state
       logs := st.taskLogs taskId
       generation := generation
       variants := variantsShots.1 generation
       worker := getWorkerInfo st state.workerId
       creditEntries := st.creditEntries taskId
       orchestratorTask := orchInfo.1
       childTasks := orchInfo.2.1
       runSiblings := orchInfo.2.2.1
       dependentTasks := st.dependentTasks taskId
       predecessorTasks := getPredecessorTasks st.taskSummary state.dependantOn
       shotAssociations := variantsShots.2.1 generation },
     [.task, .logs, .generation, .worker, .credits, .predecessors, .dependents]
       ++ variantsShots.2.2 ++ orchInfo.2.2.2)

/-- C7 theorem: for a task id absent from the store, `get_task_info` returns a
view whose state is null and whose every relationship field is empty or null,
and attempts no relationship sub-fetch (the trace holds only the task fetch
itself). -/
theorem getTaskInfo_absent (st : DebugStore) (taskId : String)
    (h : st.taskRow taskId = none) :
    getTaskInfo st taskId
      = ({ taskId := taskId, state := none, logs := [], generation := none,
           variants := [], worker := none, creditEntries := [],
           orchestratorTask := none, childTasks := [], runSiblings := [],
           dependentTasks := [], predecessorTasks := [], shotAssociations := [] },
         [Fetch.task]) := by
  unfold getTaskInfo
  rw [h]

/-- Witness for `getTaskInfo_absent` on a concrete empty store. -/
theorem getTaskInfo_absent_witness :
    (DebugStore.taskRow ⟨fun _ => none, fun _ => [],
        ⟨fun _ => .ok none, fun _ => .ok none, fun _ => .ok [], .ok []⟩,
        fun _ => none, fun _ => [], fun _ => none, fun _ => [], fun _ => [],
        fun _ => [], fun _ _ => [], fun _ => []⟩) "t9" = none ∧
      (getTaskInfo ⟨fun _ => none, fun _ => [],
        ⟨fun _ => .ok none, fun _ => .ok none, fun _ => .ok [], .ok []⟩,
        fun _ => none, fun _ => [], fun _ => none, fun _ => [], fun _ => [],
        fun _ => [], fun _ _ => [], fun _ => []⟩ "t9").2 = [Fetch.task] :=
  ⟨rfl, by
    rw [getTaskInfo_absent ⟨fun _ => none, fun _ => [],
      ⟨fun _ => .ok none, fun _ => .ok none, fun _ => .ok [], .ok []⟩,
      fun _ => none, fun _ => [], fun _ => none, fun _ => [], fun _ => [],
      fun _ => [], fun _ _ => [], fun _ => []⟩ "t9" rfl]⟩

/-! ## Recovery engine (`scripts/recover_segments.py`)

Input records come from a JSON export of task rows.  `analyze_tasks` groups
them by `params.segment_index`, records the first truthy
`params.parent_generation_id` / `params.project_id`, and sorts every group by
`created_at` descending (Python's stable sort with `reverse=True`; the key
`x['created_at'] or ''` makes a missing timestamp minimal, modelled by
`Option.getD 0`).  `recreate_parent_generation` / `recreate_child_generation`
then upsert rows; the store is modelled as explicit row lists on which every
insert succeeds (`result.data` non-empty), matching a healthy remote store. -/

/-- The fields of an exported task row that the recovery script reads.
`segmentIndex`, `parentGenerationId`, `projectId`, `childGenerationId` and
`thumbnailUrl` live inside `params`; `pairShotGenerationId` is the combined
lookup `params.pair_shot_generation_id or
params.individual_segment_params.pair_shot_generation_id`. -/
structure RawTask where
  id : String
  status : Option String
  outputLocation : Option String
  createdAt : Option Nat
  segmentIndex : Option Nat
  parentGenerationId : Option String
  projectId : Option String
  childGenerationId : Option String
  thumbnailUrl : Option String
  pairShotGenerationId : Option String
deriving DecidableEq, Repr

/-- The per-task dict built by `analyze_tasks` for a segment group. -/
structure SegRec where
  taskId : String
  childGenerationId : Option String
  outputLocation : Option String
  thumbnailUrl : Option String
  status : Option String
  createdAt : Option Nat
  pairShotGenerationId : Option String
deriving DecidableEq, Repr

def RawTask.toSegRec (t : RawTask) : SegRec :=
  { taskId := t.id
    childGenerationId := t.childGenerationId
    outputLocation := t.outputLocation
    thumbnailUrl := t.thumbnailUrl
    status := t.status
    createdAt := t.createdAt
    pairShotGenerationId := t.pairShotGenerationId }

/-- Sort key `x['created_at'] or ''`: a missing timestamp sorts as minimal. -/
def segKey (r : SegRec) : Nat := r.createdAt.getD 0

/-- Stable descending insertion: an element is placed before the first
strictly-smaller key, after equal keys already present keep their order
relative to later input (ties keep input order, as in Python's stable sort). -/
def insertDesc (x : SegRec) : List SegRec → List SegRec
  | [] => [x]
  | y :: ys => if segKey y ≤ segKey x then x :: y :: ys else y :: insertDesc x ys

/-- `list.sort(key=..., reverse=True)`: newest first. -/
def sortNewestFirst : List SegRec → List SegRec
  | [] => []
  | x :: xs => insertDesc x (sortNewestFirst xs)

/-- Append a record to its segment group, preserving dict insertion order. -/
def addToGroup (i : Nat) (r : SegRec) :
    List (Nat × List SegRec) → List (Nat × List SegRec)
  | [] => [(i, [r])]
  | (j, rs) :: rest =>
    if j = i then (j, rs ++ [r]) :: rest
    else (j, rs) :: addToGroup i r rest

/-- The result of `analyze_tasks`. -/
structure Analysis where
  parentGenerationId : Option String
  projectId : Option String
  segments : List (Nat × List SegRec)
deriving DecidableEq, Repr

/-- `analyze_tasks`: group by segment index (records without one are skipped),
record the first truthy parent/project id, sort each group newest-first. -/
def analyzeTasks (tasks : List RawTask) : Analysis :=
  let r := tasks.foldl
    (fun (acc : Option String × Option String × List (Nat × List SegRec)) t =>
      match t.segmentIndex with
      | none => acc
      | some i =>
        let parent := match acc.1 with
          | some p => some p
          | none => optStr t.parentGenerationId
        let proj := match acc.2.1 with
          | some p => some p
          | none => optStr t.projectId
        (parent, proj, addToGroup i t.toSegRec acc.2.2))
    (none, none, [])
  { parentGenerationId := r.1
    projectId := r.2.1
    segments := r.2.2.map fun g => (g.1, sortNewestFirst g.2) }

/-- A `generations` row, restricted to the fields the script writes/reads.
`createdFrom`, `segmentIndex` and `pairShotGenerationId` live in the row's
`params` JSON in the source. -/
structure GenRow where
  id : String
  projectId : Option String
  genType : String
  isChild : Bool
  parentGenerationId : Option String
  childOrder : Option Nat
  location : Option String
  thumbnailUrl : Option String
  createdAt : Nat
  createdFrom : String
  segmentIndex : Option Nat
  pairShotGenerationId : Option String
deriving DecidableEq, Repr

/-- A `generation_variants` row, restricted to the fields the script writes.
`sourceTaskId` and `pairShotGenerationId` live in the row's `params` JSON. -/
structure VariantRow where
  generationId : String
  location : String
  thumbnailUrl : Option String
  isPrimary : Bool
  variantType : String
  sourceTaskId : String
  pairShotGenerationId : Option String
  createdAt : Nat
deriving DecidableEq, Repr

/-- The two tables the recovery engine touches. Inserts always succeed. -/
structure Store where
  gens : List GenRow
  variants : List VariantRow
deriving DecidableEq, Repr

/-- `generations.select('id').eq('id', gid)` returning non-empty data. -/
def Store.genExists (s : Store) (gid : String) : Bool :=
  s.gens.any fun g => g.id = gid

def Store.insertGen (s : Store) (g : GenRow) : Store :=
  { s with gens := s.gens ++ [g] }

/-- `t.get('status') == 'Complete' and t.get('output_location')`. -/
def isCompleteWithOutput (r : SegRec) : Bool :=
  decide (r.status = some "Complete") && (optStr r.outputLocation).isSome

/-- The first truthy `child_generation_id` in the group (the `for t in tasks`
search at the top of `recreate_child_generation`). -/
def resolvedChildId (tasks : List SegRec) : Option String :=
  tasks.findSome? fun t => optStr t.childGenerationId

/-- Outcome of `recreate_parent_generation`. -/
structure ParentOutcome where
  ok : Bool
  store : Store
  inserts : Nat
deriving DecidableEq, Repr

/-- The `gen_data` row inserted for a recovered parent generation. -/
def parentGenRow (parentGenId : String) (projectId : Option String) (now : Nat) : GenRow :=
  { id := parentGenId, projectId := projectId, genType := "video",
    isChild := false, parentGenerationId := none, childOrder := none,
    location := none, thumbnailUrl := none, createdAt := now,
    createdFrom := "recovery_script", segmentIndex := none,
    pairShotGenerationId := none }

def recreateParentGeneration (s : Store) (parentGenId : String)
    (projectId : Option String) (dryRun : Bool) (now : Nat) : ParentOutcome :=
  if s.genExists parentGenId then ⟨true, s, 0⟩
  else if dryRun then ⟨true, s, 0⟩
  else ⟨true, s.insertGen (parentGenRow parentGenId projectId now), 1⟩

/-- The per-segment decision the script reports (skip reasons, reuse of an
existing generation, or creation with the planned variant count printed as
"Total variants to create"). -/
inductive SegDecision where
  | skipNoChildId
  | skipNoBest
  | reuse (childId : String)
  | create (childId : String) (bestTaskId : String) (variantPlan : Nat)
deriving DecidableEq, Repr

/-- One iteration of the `for i, t in enumerate(tasks)` variant loop: a
Complete-with-output record at newest-first position `i` yields a variant with
`is_primary = (i == 0)`; other records yield none. -/
def variantRowOf (childGenId : String) (now : Nat) (it : Nat × SegRec) :
    Option VariantRow :=
  if isCompleteWithOutput it.2 then
    some { generationId := childGenId
           location := it.2.outputLocation.getD ""
           thumbnailUrl := it.2.thumbnailUrl
           isPrimary := it.1 == 0
           variantType := "individual_segment"
           sourceTaskId := it.2.taskId
           pairShotGenerationId := it.2.pairShotGenerationId
           createdAt := it.2.createdAt.getD now }
  else none

/-- The variant rows inserted by the enumerate loop. -/
def variantRows (childGenId : String) (tasks : List SegRec) (now : Nat) :
    List VariantRow :=
  tasks.enum.filterMap (variantRowOf childGenId now)

/-- The `generations` row inserted for a recovered child segment. -/
def childGenRow (cid : String) (segmentIdx : Nat) (parentGenId : String)
    (projectId : Option String) (best : SegRec) (now : Nat) : GenRow :=
  { id := cid, projectId := projectId, genType := "video", isChild := true,
    parentGenerationId := some parentGenId, childOrder := some segmentIdx,
    location := best.outputLocation, thumbnailUrl := best.thumbnailUrl,
    createdAt := best.createdAt.getD now, createdFrom := "recovery_script",
    segmentIndex := some segmentIdx, pairShotGenerationId := best.pairShotGenerationId }

/-- Outcome of `recreate_child_generation` for one segment. -/
structure SegOutcome where
  result : Option String
  decision : SegDecision
  store : Store
  genInserts : Nat
  variantInserts : Nat
deriving DecidableEq, Repr

/-- `recreate_child_generation`: resolve the child generation id, find the
canonical source task (first Complete-with-output in newest-first order),
no-op when the generation already exists, otherwise insert the generation and
its variants.  Note the order: the no-completed-task skip fires BEFORE the
existence check. -/
def recreateChildGeneration (s : Store) (segmentIdx : Nat) (tasks : List SegRec)
    (parentGenId : String) (projectId : Option String) (dryRun : Bool) (now : Nat) :
    SegOutcome :=
  match resolvedChildId tasks with
  | none => ⟨none, .skipNoChildId, s, 0, 0⟩
  | some childGenId =>
    match tasks.find? isCompleteWithOutput with
    | none => ⟨none, .skipNoBest, s, 0, 0⟩
    | some bestTask =>
      if s.genExists childGenId then ⟨some childGenId, .reuse childGenId, s, 0, 0⟩
      else
        let plan := (tasks.filter isCompleteWithOutput).length
        if dryRun then
          ⟨some childGenId, .create childGenId bestTask.taskId plan, s, 0, 0⟩
        else
          let genRow : GenRow := childGenRow childGenId segmentIdx parentGenId projectId bestTask now
          let vs := variantRows childGenId tasks now
          ⟨some childGenId, .create childGenId bestTask.taskId plan,
            { gens := (s.insertGen genRow).gens, variants := s.variants ++ vs },
            1, vs.length⟩

/-- Combined outcome of the per-segment loop in `main`. -/
structure SegsOut where
  store : Store
  results : List (Nat × Option String)
  decisions : List (Nat × SegDecision)
  genInserts : Nat
  variantInserts : Nat
deriving DecidableEq, Repr

def runSegments (s : Store) (segs : List (Nat × List SegRec)) (parentGenId : String)
    (projectId : Option String) (dryRun : Bool) (now : Nat) : SegsOut :=
  match segs with
  | [] => ⟨s, [], [], 0, 0⟩
  | (idx, ts) :: rest =>
    let o := recreateChildGeneration s idx ts parentGenId projectId dryRun now
    let r := runSegments o.store rest parentGenId projectId dryRun now
    ⟨r.store, (idx, o.result) :: r.results, (idx, o.decision) :: r.decisions,
      o.genInserts + r.genInserts, o.variantInserts + r.variantInserts⟩

def insertAscByKey (x : Nat × List SegRec) :
    List (Nat × List SegRec) → List (Nat × List SegRec)
  | [] => [x]
  | y :: ys => if x.1 ≤ y.1 then x :: y :: ys else y :: insertAscByKey x ys

/-- `sorted(segments.keys())`: the per-segment loop runs in ascending index
order. -/
def sortSegsAsc : List (Nat × List SegRec) → List (Nat × List SegRec)
  | [] => []
  | x :: xs => insertAscByKey x (sortSegsAsc xs)

/-- Overall result of one engine run: per-segment results and decisions, the
final "recovered N/M" tally, the store, and the insert counts. -/
structure RunResult where
  results : List (Nat × Option String)
  decisions : List (Nat × SegDecision)
  successCount : Nat
  total : Nat
  store : Store
  genInserts : Nat
  variantInserts : Nat
deriving DecidableEq, Repr

/-- The engine run from `main` (after input resolution): parent step, then the
per-segment loop over ascending indices.  In this model the parent step cannot
fail, so the `sys.exit(1)` abort branch is unreachable; it is kept for
faithfulness.  A per-segment result counts as recovered when truthy — resolved
child ids are non-empty strings, so truthiness is `isSome`. -/
def runRecovery (s : Store) (parentGenId : String) (projectId : Option String)
    (segments : List (Nat × List SegRec)) (dryRun : Bool) (now : Nat) : RunResult :=
  let p := recreateParentGeneration s parentGenId projectId dryRun now
  if p.ok = false ∧ dryRun = false then
    ⟨[], [], 0, segments.length, p.store, p.inserts, 0⟩
  else
    let o := runSegments p.store (sortSegsAsc segments) parentGenId projectId dryRun now
    ⟨o.results, o.decisions, (o.results.filter fun r => r.2.isSome).length,
      segments.length, o.store, p.inserts + o.genInserts, o.variantInserts⟩

/-- The full pipeline of `main` on a loaded export: analysis, parent-id
resolution (`args.parent_gen_id or analysis['parent_generation_id']`), then
the run.  Returns `none` for the two paths that leave this model: a falsy
resolved parent id (the script would query the store with a null key) and an
empty segment dict (`min(segments.keys())` raises `ValueError`). -/
def mainRun (tasks : List RawTask) (override : Option String) (dryRun : Bool)
    (now : Nat) (s : Store) : Option RunResult :=
  let a := analyzeTasks tasks
  match orElseTruthy override a.parentGenerationId with
  | none => none
  | some p =>
    match a.segments with
    | [] => none
    | _ => some (runRecovery s p a.projectId a.segments dryRun now)

/-! ### Case lemmas for the recovery engine -/

theorem recreateChildGeneration_noChild (s : Store) (idx : Nat) (ts : List SegRec)
    (p : String) (pj : Option String) (dr : Bool) (now : Nat)
    (h : resolvedChildId ts = none) :
    recreateChildGeneration s idx ts p pj dr now = ⟨none, .skipNoChildId, s, 0, 0⟩ := by
  unfold recreateChildGeneration
  rw [h]

theorem recreateChildGeneration_noBest (s : Store) (idx : Nat) (ts : List SegRec)
    (p : String) (pj : Option String) (dr : Bool) (now : Nat) (cid : String)
    (h1 : resolvedChildId ts = some cid)
    (h2 : ts.find? isCompleteWithOutput = none) :
    recreateChildGeneration s idx ts p pj dr now = ⟨none, .skipNoBest, s, 0, 0⟩ := by
  unfold recreateChildGeneration
  rw [h1, h2]

theorem recreateChildGeneration_reuse (s : Store) (idx : Nat) (ts : List SegRec)
    (p : String) (pj : Option String) (dr : Bool) (now : Nat) (cid : String) (b : SegRec)
    (h1 : resolvedChildId ts = some cid)
    (h2 : ts.find? isCompleteWithOutput = some b)
    (h3 : s.genExists cid = true) :
    recreateChildGeneration s idx ts p pj dr now = ⟨some cid, .reuse cid, s, 0, 0⟩ := by
  unfold recreateChildGeneration
  rw [h1, h2]
  simp only [h3, if_true]

theorem recreateChildGeneration_createDry (s : Store) (idx : Nat) (ts : List SegRec)
    (p : String) (pj : Option String) (now : Nat) (cid : String) (b : SegRec)
    (h1 : resolvedChildId ts = some cid)
    (h2 : ts.find? isCompleteWithOutput = some b)
    (h3 : s.genExists cid = false) :
    recreateChildGeneration s idx ts p pj true now
      = ⟨some cid, .create cid b.taskId (ts.filter isCompleteWithOutput).length,
          s, 0, 0⟩ := by
  unfold recreateChildGeneration
  rw [h1, h2]
  simp only [h3, Bool.false_eq_true, if_false, if_true]

theorem recreateChildGeneration_createReal (s : Store) (idx : Nat) (ts : List SegRec)
    (p : String) (pj : Option String) (now : Nat) (cid : String) (b : SegRec)
    (h1 : resolvedChildId ts = some cid)
    (h2 : ts.find? isCompleteWithOutput = some b)
    (h3 : s.genExists cid = false) :
    recreateChildGeneration s idx ts p pj false now
      = ⟨some cid, .create cid b.taskId (ts.filter isCompleteWithOutput).length,
          ⟨s.gens ++ [childGenRow cid idx p pj b now],
            s.variants ++ variantRows cid ts now⟩,
          1, (variantRows cid ts now).length⟩ := by
  unfold recreateChildGeneration
  rw [h1, h2]
  simp only [h3, Bool.false_eq_true, if_false]
  rfl

theorem Store.genExists_insertGen (s : Store) (g : GenRow) (gid : String) :
    (s.insertGen g).genExists gid = (s.genExists gid || decide (g.id = gid)) := by
  unfold Store.insertGen Store.genExists
  rw [List.any_append]
  simp

theorem Store.genExists_append_one (gens : List GenRow) (vs : List VariantRow)
    (g : GenRow) (vs2 : List VariantRow) (gid : String) :
    (Store.mk (gens ++ [g]) vs2).genExists gid
      = ((Store.mk gens vs).genExists gid || decide (g.id = gid)) := by
  unfold Store.genExists
  rw [List.any_append]
  simp

/-- Every outcome of `recreate_child_generation` only appends generation rows. -/
theorem recreateChildGeneration_gens_extend (s : Store) (idx : Nat) (ts : List SegRec)
    (p : String) (pj : Option String) (dr : Bool) (now : Nat) :
    ∃ tail, (recreateChildGeneration s idx ts p pj dr now).store.gens = s.gens ++ tail := by
  cases hr : resolvedChildId ts with
  | none => rw [recreateChildGeneration_noChild s idx ts p pj dr now hr]; exact ⟨[], by simp⟩
  | some cid =>
    cases hf : ts.find? isCompleteWithOutput with
    | none => rw [recreateChildGeneration_noBest s idx ts p pj dr now cid hr hf]; exact ⟨[], by simp⟩
    | some b =>
      cases hg : s.genExists cid with
      | true =>
        rw [recreateChildGeneration_reuse s idx ts p pj dr now cid b hr hf hg]
        exact ⟨[], by simp⟩
      | false =>
        cases dr with
        | true =>
          rw [recreateChildGeneration_createDry s idx ts p pj now cid b hr hf hg]
          exact ⟨[], by simp⟩
        | false =>
          rw [recreateChildGeneration_createReal s idx ts p pj now cid b hr hf hg]
          exact ⟨[childGenRow cid idx p pj b now], rfl⟩

theorem Store.genExists_mono (s s' : Store) (gid : String)
    (h : ∃ tail, s'.gens = s.gens ++ tail) (hg : s.genExists gid = true) :
    s'.genExists gid = true := by
  obtain ⟨tail, ht⟩ := h
  unfold Store.genExists at hg ⊢
  rw [ht, List.any_append, hg]
  rfl

/-- A non-`none` segment result (in a real run) means: the id is the group's
resolved child id, a canonical source exists, and the id exists in the
post-segment store. -/
theorem recreateChildGeneration_result_some (s : Store) (idx : Nat) (ts : List SegRec)
    (p : String) (pj : Option String) (now : Nat) (cid : String)
    (h : (recreateChildGeneration s idx ts p pj false now).result = some cid) :
    resolvedChildId ts = some cid
      ∧ (∃ b, ts.find? isCompleteWithOutput = some b)
      ∧ (recreateChildGeneration s idx ts p pj false now).store.genExists cid = true := by
  cases hr : resolvedChildId ts with
  | none =>
    rw [recreateChildGeneration_noChild s idx ts p pj false now hr] at h
    cases h
  | some cid0 =>
    cases hf : ts.find? isCompleteWithOutput with
    | none =>
      rw [recreateChildGeneration_noBest s idx ts p pj false now cid0 hr hf] at h
      cases h
    | some b =>
      cases hg : s.genExists cid0 with
      | true =>
        rw [recreateChildGeneration_reuse s idx ts p pj false now cid0 b hr hf hg] at h
        have h9 : some cid0 = some cid := h
        cases h9
        refine ⟨rfl, ⟨b, rfl⟩, ?_⟩
        rw [recreateChildGeneration_reuse s idx ts p pj false now _ b hr hf hg]
        exact hg
      | false =>
        rw [recreateChildGeneration_createReal s idx ts p pj now cid0 b hr hf hg] at h
        have h9 : some cid0 = some cid := h
        cases h9
        refine ⟨rfl, ⟨b, rfl⟩, ?_⟩
        rw [recreateChildGeneration_createReal s idx ts p pj now _ b hr hf hg]
        show (Store.mk (s.gens ++ [childGenRow cid idx p pj b now])
            (s.variants ++ variantRows cid ts now)).genExists cid = true
        rw [Store.genExists_append_one s.gens s.variants _ _ cid]
        simp [childGenRow]

/-- A `none` segment result is decided by the group alone, independently of the
store, and leaves the store untouched. -/
theorem recreateChildGeneration_result_none (s : Store) (idx : Nat) (ts : List SegRec)
    (p : String) (pj : Option String) (dr : Bool) (now : Nat)
    (h : (recreateChildGeneration s idx ts p pj dr now).result = none) :
    resolvedChildId ts = none ∨ ts.find? isCompleteWithOutput = none := by
  cases hr : resolvedChildId ts with
  | none => exact Or.inl rfl
  | some cid =>
    cases hf : ts.find? isCompleteWithOutput with
    | none => exact Or.inr rfl
    | some b =>
      cases hg : s.genExists cid with
      | true =>
        rw [recreateChildGeneration_reuse s idx ts p pj dr now cid b hr hf hg] at h
        cases h
      | false =>
        cases dr with
        | true =>
          rw [recreateChildGeneration_createDry s idx ts p pj now cid b hr hf hg] at h
          cases h
        | false =>
          rw [recreateChildGeneration_createReal s idx ts p pj now cid b hr hf hg] at h
          cases h

theorem recreateChildGeneration_dry_frame (s : Store) (idx : Nat) (ts : List SegRec)
    (p : String) (pj : Option String) (now : Nat) :
    (recreateChildGeneration s idx ts p pj true now).store = s
      ∧ (recreateChildGeneration s idx ts p pj true now).genInserts = 0
      ∧ (recreateChildGeneration s idx ts p pj true now).variantInserts = 0 := by
  cases hr : resolvedChildId ts with
  | none => rw [recreateChildGeneration_noChild s idx ts p pj true now hr]; exact ⟨rfl, rfl, rfl⟩
  | some cid =>
    cases hf : ts.find? isCompleteWithOutput with
    | none =>
      rw [recreateChildGeneration_noBest s idx ts p pj true now cid hr hf]
      exact ⟨rfl, rfl, rfl⟩
    | some b =>
      cases hg : s.genExists cid with
      | true =>
        rw [recreateChildGeneration_reuse s idx ts p pj true now cid b hr hf hg]
        exact ⟨rfl, rfl, rfl⟩
      | false =>
        rw [recreateChildGeneration_createDry s idx ts p pj now cid b hr hf hg]
        exact ⟨rfl, rfl, rfl⟩

/-- Dry and real segment processing agree on the decision and result whenever
the two stores agree on the existence of the group's resolved child id. -/
theorem recreateChildGeneration_dry_real_agree (s1 s2 : Store) (idx : Nat)
    (ts : List SegRec) (p : String) (pj : Option String) (now : Nat)
    (hag : ∀ cid, resolvedChildId ts = some cid → s1.genExists cid = s2.genExists cid) :
    (recreateChildGeneration s1 idx ts p pj true now).decision
        = (recreateChildGeneration s2 idx ts p pj false now).decision
      ∧ (recreateChildGeneration s1 idx ts p pj true now).result
        = (recreateChildGeneration s2 idx ts p pj false now).result := by
  cases hr : resolvedChildId ts with
  | none =>
    rw [recreateChildGeneration_noChild s1 idx ts p pj true now hr,
      recreateChildGeneration_noChild s2 idx ts p pj false now hr]
    exact ⟨rfl, rfl⟩
  | some cid =>
    cases hf : ts.find? isCompleteWithOutput with
    | none =>
      rw [recreateChildGeneration_noBest s1 idx ts p pj true now cid hr hf,
        recreateChildGeneration_noBest s2 idx ts p pj false now cid hr hf]
      exact ⟨rfl, rfl⟩
    | some b =>
      cases hg : s2.genExists cid with
      | true =>
        rw [recreateChildGeneration_reuse s1 idx ts p pj true now cid b hr hf
            ((hag cid hr).trans hg),
          recreateChildGeneration_reuse s2 idx ts p pj false now cid b hr hf hg]
        exact ⟨rfl, rfl⟩
      | false =>
        rw [recreateChildGeneration_createDry s1 idx ts p pj now cid b hr hf
            ((hag cid hr).trans hg),
          recreateChildGeneration_createReal s2 idx ts p pj now cid b hr hf hg]
        exact ⟨rfl, rfl⟩

theorem recreateParentGeneration_ok (s : Store) (pid : String) (pj : Option String)
    (dr : Bool) (now : Nat) : (recreateParentGeneration s pid pj dr now).ok = true := by
  unfold recreateParentGeneration
  cases hg : s.genExists pid with
  | true => rw [if_pos rfl]
  | false =>
    rw [if_neg (by rw [show (false = true) = False by simp]; exact id)]
    cases dr with
    | true => rw [if_pos rfl]
    | false => rw [if_neg (by rw [show (false = true) = False by simp]; exact id)]

theorem recreateParentGeneration_dry_frame (s : Store) (pid : String)
    (pj : Option String) (now : Nat) :
    (recreateParentGeneration s pid pj true now).store = s
      ∧ (recreateParentGeneration s pid pj true now).inserts = 0 := by
  unfold recreateParentGeneration
  cases hg : s.genExists pid with
  | true => rw [if_pos rfl]; exact ⟨rfl, rfl⟩
  | false =>
    rw [if_neg (by rw [show (false = true) = False by simp]; exact id), if_pos rfl]
    exact ⟨rfl, rfl⟩

theorem recreateParentGeneration_real_store (s : Store) (pid : String)
    (pj : Option String) (now : Nat) :
    (recreateParentGeneration s pid pj false now).store.genExists pid = true
      ∧ (∀ gid, gid ≠ pid →
          (recreateParentGeneration s pid pj false now).store.genExists gid
            = s.genExists gid)
      ∧ ∃ tail, (recreateParentGeneration s pid pj false now).store.gens
          = s.gens ++ tail := by
  unfold recreateParentGeneration
  cases hg : s.genExists pid with
  | true =>
    rw [if_pos rfl]
    exact ⟨hg, fun gid _ => rfl, ⟨[], by simp⟩⟩
  | false =>
    rw [if_neg (by rw [show (false = true) = False by simp]; exact id),
      if_neg (by rw [show (false = true) = False by simp]; exact id)]
    refine ⟨?_, ?_, ⟨[parentGenRow pid pj now], rfl⟩⟩
    · rw [Store.genExists_insertGen]
      simp [parentGenRow]
    · intro gid hne
      rw [Store.genExists_insertGen]
      have : decide (GenRow.id (parentGenRow pid pj now) = gid) = false := by
        simp [parentGenRow]
        exact fun he => hne he.symm
      rw [this, Bool.or_false]

theorem runSegments_cons (s : Store) (idx : Nat) (ts : List SegRec)
    (rest : List (Nat × List SegRec)) (p : String) (pj : Option String)
    (dr : Bool) (now : Nat) :
    runSegments s ((idx, ts) :: rest) p pj dr now
      = ⟨(runSegments (recreateChildGeneration s idx ts p pj dr now).store rest p pj dr now).store,
          (idx, (recreateChildGeneration s idx ts p pj dr now).result)
            :: (runSegments (recreateChildGeneration s idx ts p pj dr now).store rest p pj dr now).results,
          (idx, (recreateChildGeneration s idx ts p pj dr now).decision)
            :: (runSegments (recreateChildGeneration s idx ts p pj dr now).store rest p pj dr now).decisions,
          (recreateChildGeneration s idx ts p pj dr now).genInserts
            + (runSegments (recreateChildGeneration s idx ts p pj dr now).store rest p pj dr now).genInserts,
          (recreateChildGeneration s idx ts p pj dr now).variantInserts
            + (runSegments (recreateChildGeneration s idx ts p pj dr now).store rest p pj dr now).variantInserts⟩ := rfl

theorem runSegments_gens_extend (p : String) (pj : Option String) (dr : Bool) (now : Nat) :
    ∀ segs : List (Nat × List SegRec), ∀ s : Store,
      ∃ tail, (runSegments s segs p pj dr now).store.gens = s.gens ++ tail := by
  intro segs
  induction segs with
  | nil => exact fun s => ⟨[], by simp [runSegments]⟩
  | cons seg rest ih =>
    intro s
    obtain ⟨idx, ts⟩ := seg
    rw [runSegments_cons]
    obtain ⟨t1, h1⟩ := recreateChildGeneration_gens_extend s idx ts p pj dr now
    obtain ⟨t2, h2⟩ := ih (recreateChildGeneration s idx ts p pj dr now).store
    exact ⟨t1 ++ t2, by rw [h2, h1, List.append_assoc]⟩

theorem runSegments_dry_frame (p : String) (pj : Option String) (now : Nat) :
    ∀ segs : List (Nat × List SegRec), ∀ s : Store,
      (runSegments s segs p pj true now).store = s
        ∧ (runSegments s segs p pj true now).genInserts = 0
        ∧ (runSegments s segs p pj true now).variantInserts = 0 := by
  intro segs
  induction segs with
  | nil => exact fun s => ⟨rfl, rfl, rfl⟩
  | cons seg rest ih =>
    intro s
    obtain ⟨idx, ts⟩ := seg
    rw [runSegments_cons]
    obtain ⟨hs, hg, hv⟩ := recreateChildGeneration_dry_frame s idx ts p pj now
    obtain ⟨hs2, hg2, hv2⟩ := ih (recreateChildGeneration s idx ts p pj true now).store
    refine ⟨by rw [hs2, hs], by rw [hg, hg2], by rw [hv, hv2]⟩

theorem recreateParentGeneration_exists (s : Store) (pid : String) (pj : Option String)
    (dr : Bool) (now : Nat) (h : s.genExists pid = true) :
    recreateParentGeneration s pid pj dr now = ⟨true, s, 0⟩ := by
  unfold recreateParentGeneration
  rw [if_pos h]

/-- Re-running the per-segment loop over the store left by a first real run
reproduces the same per-segment results with zero inserts and no store change. -/
theorem runSegments_idem (p : String) (pj : Option String) (now1 now2 : Nat) :
    ∀ segs : List (Nat × List SegRec), ∀ s : Store,
      (runSegments (runSegments s segs p pj false now1).store segs p pj false now2).results
          = (runSegments s segs p pj false now1).results
        ∧ (runSegments (runSegments s segs p pj false now1).store segs p pj false now2).store
          = (runSegments s segs p pj false now1).store
        ∧ (runSegments (runSegments s segs p pj false now1).store segs p pj false now2).genInserts
          = 0
        ∧ (runSegments (runSegments s segs p pj false now1).store segs p pj false now2).variantInserts
          = 0 := by
  intro segs
  induction segs with
  | nil => intro s; exact ⟨rfl, rfl, rfl, rfl⟩
  | cons seg rest ih =>
    intro s
    obtain ⟨idx, ts⟩ := seg
    rw [runSegments_cons s idx ts rest p pj false now1]
    dsimp only
    cases hrr : resolvedChildId ts with
    | none =>
      rw [recreateChildGeneration_noChild s idx ts p pj false now1 hrr]
      dsimp only
      rw [runSegments_cons _ idx ts rest p pj false now2,
        recreateChildGeneration_noChild _ idx ts p pj false now2 hrr]
      dsimp only
      obtain ⟨ihr, ihs, ihg, ihv⟩ := ih s
      refine ⟨by rw [ihr], by rw [ihs], by rw [ihg], by rw [ihv]⟩
    | some cid =>
      cases hff : ts.find? isCompleteWithOutput with
      | none =>
        rw [recreateChildGeneration_noBest s idx ts p pj false now1 cid hrr hff]
        dsimp only
        rw [runSegments_cons _ idx ts rest p pj false now2,
          recreateChildGeneration_noBest _ idx ts p pj false now2 cid hrr hff]
        dsimp only
        obtain ⟨ihr, ihs, ihg, ihv⟩ := ih s
        refine ⟨by rw [ihr], by rw [ihs], by rw [ihg], by rw [ihv]⟩
      | some b =>
        cases hgg : s.genExists cid with
        | true =>
          rw [recreateChildGeneration_reuse s idx ts p pj false now1 cid b hrr hff hgg]
          dsimp only
          have hT : (runSegments s rest p pj false now1).store.genExists cid = true :=
            Store.genExists_mono s _ cid (runSegments_gens_extend p pj false now1 rest s) hgg
          rw [runSegments_cons _ idx ts rest p pj false now2,
            recreateChildGeneration_reuse _ idx ts p pj false now2 cid b hrr hff hT]
          dsimp only
          obtain ⟨ihr, ihs, ihg, ihv⟩ := ih s
          refine ⟨by rw [ihr], by rw [ihs], by rw [ihg], by rw [ihv]⟩
        | false =>
          rw [recreateChildGeneration_createReal s idx ts p pj now1 cid b hrr hff hgg]
          dsimp only
          have hS : (Store.mk (s.gens ++ [childGenRow cid idx p pj b now1])
              (s.variants ++ variantRows cid ts now1)).genExists cid = true := by
            rw [Store.genExists_append_one s.gens s.variants _ _ cid]
            simp [childGenRow]
          have hT : (runSegments
              (Store.mk (s.gens ++ [childGenRow cid idx p pj b now1])
                (s.variants ++ variantRows cid ts now1)) rest p pj false now1).store.genExists cid
              = true :=
            Store.genExists_mono _ _ cid
              (runSegments_gens_extend p pj false now1 rest _) hS
          rw [runSegments_cons _ idx ts rest p pj false now2,
            recreateChildGeneration_reuse _ idx ts p pj false now2 cid b hrr hff hT]
          dsimp only
          obtain ⟨ihr, ihs, ihg, ihv⟩ :=
            ih (Store.mk (s.gens ++ [childGenRow cid idx p pj b now1])
              (s.variants ++ variantRows cid ts now1))
          refine ⟨by rw [ihr], by rw [ihs], by rw [ihg], by rw [ihv]⟩

/-- Re-running the whole engine on the store left by a first real run performs
zero inserts, reports the same results and tally, and leaves the store as it
was. -/
theorem runRecovery_idem (s : Store) (p : String) (pj : Option String)
    (segs : List (Nat × List SegRec)) (now1 now2 : Nat) :
    (runRecovery (runRecovery s p pj segs false now1).store p pj segs false now2).genInserts = 0
      ∧ (runRecovery (runRecovery s p pj segs false now1).store p pj segs false now2).variantInserts = 0
      ∧ (runRecovery (runRecovery s p pj segs false now1).store p pj segs false now2).results
        = (runRecovery s p pj segs false now1).results
      ∧ (runRecovery (runRecovery s p pj segs false now1).store p pj segs false now2).successCount
        = (runRecovery s p pj segs false now1).successCount
      ∧ (runRecovery (runRecovery s p pj segs false now1).store p pj segs false now2).store
        = (runRecovery s p pj segs false now1).store := by
  have hok1 := recreateParentGeneration_ok s p pj false now1
  have hcond1 : ¬ ((recreateParentGeneration s p pj false now1).ok = false ∧ false = false) := by
    intro hc
    rw [hok1] at hc
    cases hc.1
  unfold runRecovery
  rw [if_neg hcond1]
  dsimp only
  obtain ⟨hpex, _, _⟩ := recreateParentGeneration_real_store s p pj now1
  have hpex2 : (runSegments (recreateParentGeneration s p pj false now1).store
      (sortSegsAsc segs) p pj false now1).store.genExists p = true :=
    Store.genExists_mono _ _ p
      (runSegments_gens_extend p pj false now1 (sortSegsAsc segs) _) hpex
  rw [recreateParentGeneration_exists _ p pj false now2 hpex2]
  dsimp only
  rw [if_neg (by intro hc; cases hc.1)]
  dsimp only
  obtain ⟨ihr, ihs, ihg, ihv⟩ :=
    runSegments_idem p pj now1 now2 (sortSegsAsc segs)
      (recreateParentGeneration s p pj false now1).store
  refine ⟨by rw [ihg], by rw [ihv], by rw [ihr], by rw [ihr], by rw [ihs]⟩

/-- C4 theorem: a second real run of the Recovery Engine over the identical
input set, starting from the store produced by a successful first run, finds
every generation row already present, performs zero generation inserts and
zero variant inserts, reports the same per-segment generation ids as
recovered, and leaves the store unchanged. -/
theorem recovery_idempotent (tasks : List RawTask) (override : Option String)
    (now1 now2 : Nat) (s0 : Store) (r1 : RunResult)
    (h : mainRun tasks override false now1 s0 = some r1) :
    ∃ r2, mainRun tasks override false now2 r1.store = some r2
      ∧ r2.genInserts = 0 ∧ r2.variantInserts = 0
      ∧ r2.results = r1.results ∧ r2.successCount = r1.successCount
      ∧ r2.store = r1.store := by
  unfold mainRun at h ⊢
  dsimp only at h ⊢
  cases hp : orElseTruthy override (analyzeTasks tasks).parentGenerationId with
  | none =>
    rw [hp] at h
    dsimp only at h
    cases h
  | some p =>
    rw [hp] at h
    dsimp only at h ⊢
    cases hseg : (analyzeTasks tasks).segments with
    | nil =>
      rw [hseg] at h
      dsimp only at h
      cases h
    | cons sg rest =>
      rw [hseg] at h
      dsimp only at h ⊢
      have hr1 : runRecovery s0 p (analyzeTasks tasks).projectId (sg :: rest) false now1 = r1 :=
        Option.some.inj h
      obtain ⟨hg2, hv2, hres2, hsc2, hst2⟩ :=
        runRecovery_idem s0 p (analyzeTasks tasks).projectId (sg :: rest) now1 now2
      subst hr1
      exact ⟨_, rfl, hg2, hv2, hres2, hsc2, hst2⟩

/-- Witness input for the idempotence theorem. -/
def idemTask : RawTask :=
  ⟨"t1", some "Complete", some "o", some 10, some 0, some "P", some "pr",
    some "X", none, none⟩

/-- The result of the first real run over `[idemTask]` from an empty store. -/
def idemRun1 : RunResult :=
  { results := [(0, some "X")]
    decisions := [(0, .create "X" "t1" 1)]
    successCount := 1
    total := 1
    store :=
      ⟨[parentGenRow "P" (some "pr") 0,
        childGenRow "X" 0 "P" (some "pr") idemTask.toSegRec 0],
        [⟨"X", "o", none, true, "individual_segment", "t1", none, 10⟩]⟩
    genInserts := 2
    variantInserts := 1 }

/-- Witness for `recovery_idempotent` on the concrete one-segment export. -/
theorem recovery_idempotent_witness :
    mainRun [idemTask] none false 0 ⟨[], []⟩ = some idemRun1
      ∧ ∃ r2, mainRun [idemTask] none false 0 idemRun1.store = some r2
          ∧ r2.genInserts = 0 ∧ r2.variantInserts = 0
          ∧ r2.results = idemRun1.results
          ∧ r2.successCount = idemRun1.successCount
          ∧ r2.store = idemRun1.store :=
  ⟨by decide, recovery_idempotent [idemTask] none 0 0 ⟨[], []⟩ idemRun1 (by decide)⟩

/-- Dry and real per-segment loops produce identical decisions and results as
long as the real store agrees with the dry store on every resolved child id of
the remaining segments and those ids are pairwise distinct. -/
theorem runSegments_dry_real_agree (p : String) (pj : Option String) (now : Nat)
    (s0 : Store) :
    ∀ segs : List (Nat × List SegRec), ∀ sR : Store,
      (∀ cid, cid ∈ segs.filterMap (fun g => resolvedChildId g.2) →
        sR.genExists cid = s0.genExists cid) →
      (segs.filterMap (fun g => resolvedChildId g.2)).Nodup →
      (runSegments s0 segs p pj true now).decisions
          = (runSegments sR segs p pj false now).decisions
        ∧ (runSegments s0 segs p pj true now).results
          = (runSegments sR segs p pj false now).results := by
  intro segs
  induction segs with
  | nil => intro sR _ _; exact ⟨rfl, rfl⟩
  | cons seg rest ih =>
    intro sR hag hnd
    obtain ⟨idx, ts⟩ := seg
    rw [runSegments_cons s0 idx ts rest p pj true now,
      runSegments_cons sR idx ts rest p pj false now]
    dsimp only
    cases hrr : resolvedChildId ts with
    | none =>
      rw [recreateChildGeneration_noChild s0 idx ts p pj true now hrr,
        recreateChildGeneration_noChild sR idx ts p pj false now hrr]
      dsimp only
      have hfm : ((idx, ts) :: rest).filterMap (fun g => resolvedChildId g.2)
          = rest.filterMap (fun g => resolvedChildId g.2) := by
        rw [List.filterMap_cons]
        dsimp only
        rw [hrr]
      rw [hfm] at hag hnd
      obtain ⟨ihd, ihr⟩ := ih sR hag hnd
      exact ⟨by rw [ihd], by rw [ihr]⟩
    | some cid =>
      have hfm : ((idx, ts) :: rest).filterMap (fun g => resolvedChildId g.2)
          = cid :: rest.filterMap (fun g => resolvedChildId g.2) := by
        rw [List.filterMap_cons]
        dsimp only
        rw [hrr]
      rw [hfm] at hag hnd
      have hagcid : sR.genExists cid = s0.genExists cid :=
        hag cid (List.mem_cons_self cid _)
      have hagrest : ∀ cid2, cid2 ∈ rest.filterMap (fun g => resolvedChildId g.2) →
          sR.genExists cid2 = s0.genExists cid2 :=
        fun cid2 hm => hag cid2 (List.mem_cons_of_mem _ hm)
      have hndrest := hnd.of_cons
      have hcidnot : cid ∉ rest.filterMap (fun g => resolvedChildId g.2) :=
        (List.nodup_cons.mp hnd).1
      cases hff : ts.find? isCompleteWithOutput with
      | none =>
        rw [recreateChildGeneration_noBest s0 idx ts p pj true now cid hrr hff,
          recreateChildGeneration_noBest sR idx ts p pj false now cid hrr hff]
        dsimp only
        obtain ⟨ihd, ihr⟩ := ih sR hagrest hndrest
        exact ⟨by rw [ihd], by rw [ihr]⟩
      | some b =>
        cases hgex : s0.genExists cid with
        | true =>
          rw [recreateChildGeneration_reuse s0 idx ts p pj true now cid b hrr hff hgex,
            recreateChildGeneration_reuse sR idx ts p pj false now cid b hrr hff
              (hagcid.trans hgex)]
          dsimp only
          obtain ⟨ihd, ihr⟩ := ih sR hagrest hndrest
          exact ⟨by rw [ihd], by rw [ihr]⟩
        | false =>
          rw [recreateChildGeneration_createDry s0 idx ts p pj now cid b hrr hff hgex,
            recreateChildGeneration_createReal sR idx ts p pj now cid b hrr hff
              (hagcid.trans hgex)]
          dsimp only
          have hagrest2 : ∀ cid2, cid2 ∈ rest.filterMap (fun g => resolvedChildId g.2) →
              (Store.mk (sR.gens ++ [childGenRow cid idx p pj b now])
                (sR.variants ++ variantRows cid ts now)).genExists cid2
                = s0.genExists cid2 := by
            intro cid2 hm
            rw [Store.genExists_append_one sR.gens sR.variants _ _ cid2]
            have hne : decide (GenRow.id (childGenRow cid idx p pj b now) = cid2)
                = false := by
              simp only [childGenRow, decide_eq_false_iff_not]
              intro he
              exact hcidnot (he ▸ hm)
            rw [hne, Bool.or_false]
            exact hagrest cid2 hm
          obtain ⟨ihd, ihr⟩ := ih _ hagrest2 hndrest
          exact ⟨by rw [ihd], by rw [ihr]⟩

/-- Engine-level dry-run properties: a dry run never writes, and — when the
resolved parent id and the resolved child ids are pairwise distinct — computes
exactly the decisions, results and tally of a real run from the same store. -/
theorem runRecovery_dry (s0 : Store) (p : String) (pj : Option String)
    (segs : List (Nat × List SegRec)) (now : Nat) :
    (runRecovery s0 p pj segs true now).store = s0
      ∧ (runRecovery s0 p pj segs true now).genInserts = 0
      ∧ (runRecovery s0 p pj segs true now).variantInserts = 0
      ∧ ((p :: (sortSegsAsc segs).filterMap (fun g => resolvedChildId g.2)).Nodup →
          (runRecovery s0 p pj segs true now).decisions
              = (runRecovery s0 p pj segs false now).decisions
            ∧ (runRecovery s0 p pj segs true now).results
              = (runRecovery s0 p pj segs false now).results
            ∧ (runRecovery s0 p pj segs true now).successCount
              = (runRecovery s0 p pj segs false now).successCount
            ∧ (runRecovery s0 p pj segs true now).total
              = (runRecovery s0 p pj segs false now).total) := by
  unfold runRecovery
  rw [if_neg (fun hc => Bool.noConfusion hc.2)]
  rw [if_neg (fun hc => by
    have := (recreateParentGeneration_ok s0 p pj false now).symm.trans hc.1
    cases this)]
  dsimp only
  obtain ⟨hpds, hpdi⟩ := recreateParentGeneration_dry_frame s0 p pj now
  obtain ⟨hsds, hsdg, hsdv⟩ :=
    runSegments_dry_frame p pj now (sortSegsAsc segs)
      (recreateParentGeneration s0 p pj true now).store
  refine ⟨by rw [hsds, hpds], by rw [hpdi, hsdg], by rw [hsdv], ?_⟩
  intro hnd
  have hpnot : p ∉ (sortSegsAsc segs).filterMap (fun g => resolvedChildId g.2) :=
    (List.nodup_cons.mp hnd).1
  obtain ⟨_, hother, _⟩ := recreateParentGeneration_real_store s0 p pj now
  have hag : ∀ cid, cid ∈ (sortSegsAsc segs).filterMap (fun g => resolvedChildId g.2) →
      (recreateParentGeneration s0 p pj false now).store.genExists cid
        = s0.genExists cid := by
    intro cid hm
    exact hother cid (fun he => hpnot (he ▸ hm))
  have hagD : ∀ cid, cid ∈ (sortSegsAsc segs).filterMap (fun g => resolvedChildId g.2) →
      (recreateParentGeneration s0 p pj false now).store.genExists cid
        = (recreateParentGeneration s0 p pj true now).store.genExists cid := by
    intro cid hm
    rw [hag cid hm, hpds]
  obtain ⟨hd, hres⟩ :=
    runSegments_dry_real_agree p pj now
      (recreateParentGeneration s0 p pj true now).store (sortSegsAsc segs)
      (recreateParentGeneration s0 p pj false now).store hagD (List.Nodup.of_cons hnd)
  refine ⟨by rw [hd], by rw [hres], by rw [hres], rfl⟩

/-- C5 amended theorem: a dry-run invocation issues zero writes (the store is
returned unchanged and both insert counters are zero) for EVERY input; and
whenever the resolved parent-generation id and the per-segment resolved child
ids are pairwise distinct — i.e. the run's own writes cannot alias a later
existence check — it computes exactly the same per-segment decisions (skip
reason / reuse / create with canonical source task and planned variant count),
per-segment results, success tally and total as a real run over the same input
and store state. -/
theorem dry_run_frame_and_decisions (tasks : List RawTask) (override : Option String)
    (now : Nat) (s0 : Store) :
    (∀ r, mainRun tasks override true now s0 = some r →
        r.store = s0 ∧ r.genInserts = 0 ∧ r.variantInserts = 0)
      ∧ (∀ p, orElseTruthy override (analyzeTasks tasks).parentGenerationId = some p →
          (p :: (sortSegsAsc (analyzeTasks tasks).segments).filterMap
              (fun g => resolvedChildId g.2)).Nodup →
          ∀ r1 r2, mainRun tasks override true now s0 = some r1 →
            mainRun tasks override false now s0 = some r2 →
            r1.decisions = r2.decisions ∧ r1.results = r2.results
              ∧ r1.successCount = r2.successCount ∧ r1.total = r2.total) := by
  constructor
  · intro r h
    unfold mainRun at h
    dsimp only at h
    cases hp : orElseTruthy override (analyzeTasks tasks).parentGenerationId with
    | none => rw [hp] at h; dsimp only at h; cases h
    | some p =>
      rw [hp] at h
      dsimp only at h
      cases hseg : (analyzeTasks tasks).segments with
      | nil => rw [hseg] at h; dsimp only at h; cases h
      | cons sg rest =>
        rw [hseg] at h
        dsimp only at h
        have hr : runRecovery s0 p (analyzeTasks tasks).projectId (sg :: rest) true now
            = r := Option.some.inj h
        obtain ⟨h1, h2, h3, _⟩ :=
          runRecovery_dry s0 p (analyzeTasks tasks).projectId (sg :: rest) now
        subst hr
        exact ⟨h1, h2, h3⟩
  · intro p hp hnd r1 r2 h1 h2
    unfold mainRun at h1 h2
    dsimp only at h1 h2
    rw [hp] at h1 h2
    dsimp only at h1 h2
    cases hseg : (analyzeTasks tasks).segments with
    | nil => rw [hseg] at h1; dsimp only at h1; cases h1
    | cons sg rest =>
      rw [hseg] at h1 h2
      dsimp only at h1 h2
      have hr1 : runRecovery s0 p (analyzeTasks tasks).projectId (sg :: rest) true now
          = r1 := Option.some.inj h1
      have hr2 : runRecovery s0 p (analyzeTasks tasks).projectId (sg :: rest) false now
          = r2 := Option.some.inj h2
      obtain ⟨_, _, _, hagree⟩ :=
        runRecovery_dry s0 p (analyzeTasks tasks).projectId (sg :: rest) now
      rw [hseg] at hnd
      obtain ⟨hd, hres, hsc, ht⟩ := hagree hnd
      subst hr1
      subst hr2
      exact ⟨hd, hres, hsc, ht⟩

/-- Two-segment export whose segments share one resolved child generation id. -/
def dupChildTasks : List RawTask :=
  [⟨"g", some "Complete", some "o1", some 1201, some 0, some "P", some "pr",
      some "GX", none, none⟩,
   ⟨"h", some "Complete", some "o2", some 1202, some 1, none, none,
      some "GX", none, none⟩]

/-- C5 counterexample: when two segments resolve to the same child generation
id, the real run's own first-segment insert flips the second segment's
existence check, so the dry run reports "would create GX (1 variant)" for
segment 1 while the real run reuses the just-created GX — the per-segment
decisions differ, refuting "byte-identical decisions for every input" (the
0-write half and the 2/4-style tally still agree). -/
theorem dry_run_decisions_counterexample :
    (mainRun dupChildTasks none true 0 ⟨[], []⟩).map RunResult.decisions
        = some [(0, .create "GX" "g" 1), (1, .create "GX" "h" 1)]
      ∧ (mainRun dupChildTasks none false 0 ⟨[], []⟩).map RunResult.decisions
        = some [(0, .create "GX" "g" 1), (1, .reuse "GX")]
      ∧ (mainRun dupChildTasks none true 0 ⟨[], []⟩).map RunResult.decisions
        ≠ (mainRun dupChildTasks none false 0 ⟨[], []⟩).map RunResult.decisions
      ∧ (mainRun dupChildTasks none true 0 ⟨[], []⟩).map RunResult.store
        = some ⟨[], []⟩ := by
  refine ⟨by decide, by decide, by decide, by decide⟩

/-- Witness for `dry_run_frame_and_decisions` on a distinct-id export: the dry
run writes nothing and reports the decisions of the real run. -/
theorem dry_run_frame_and_decisions_witness :
    (∀ r, mainRun [idemTask] none true 0 ⟨[], []⟩ = some r →
        r.store = ⟨[], []⟩ ∧ r.genInserts = 0 ∧ r.variantInserts = 0)
      ∧ (orElseTruthy none (analyzeTasks [idemTask]).parentGenerationId = some "P"
          ∧ ("P" :: (sortSegsAsc (analyzeTasks [idemTask]).segments).filterMap
              (fun g => resolvedChildId g.2)).Nodup
          ∧ ∀ r1 r2, mainRun [idemTask] none true 0 ⟨[], []⟩ = some r1 →
              mainRun [idemTask] none false 0 ⟨[], []⟩ = some r2 →
              r1.decisions = r2.decisions ∧ r1.results = r2.results
                ∧ r1.successCount = r2.successCount ∧ r1.total = r2.total) :=
  ⟨(dry_run_frame_and_decisions [idemTask] none 0 ⟨[], []⟩).1,
    by decide, by decide,
    (dry_run_frame_and_decisions [idemTask] none 0 ⟨[], []⟩).2 "P"
      (by decide) (by decide)⟩

/-- The variant row produced for the position-0 (newest) record. -/
def primaryVariantRow (cid : String) (now : Nat) (t : SegRec) : VariantRow :=
  { generationId := cid
    location := t.outputLocation.getD ""
    thumbnailUrl := t.thumbnailUrl
    isPrimary := true
    variantType := "individual_segment"
    sourceTaskId := t.taskId
    pairShotGenerationId := t.pairShotGenerationId
    createdAt := t.createdAt.getD now }

theorem variantRowOf_some (cid : String) (now : Nat) (n : Nat) (t : SegRec)
    (v : VariantRow) (h : variantRowOf cid now (n, t) = some v) :
    v.isPrimary = (n == 0) ∧ v.sourceTaskId = t.taskId
      ∧ isCompleteWithOutput t = true := by
  unfold variantRowOf at h
  cases hc : isCompleteWithOutput t with
  | false => rw [show isCompleteWithOutput (n, t).2 = false from hc] at h; cases h
  | true =>
    rw [show isCompleteWithOutput (n, t).2 = true from hc] at h
    dsimp only at h
    have h9 := Option.some.inj h
    rw [← h9]
    exact ⟨rfl, rfl, rfl⟩

theorem variantRowOf_head_complete (cid : String) (now : Nat) (t : SegRec)
    (hc : isCompleteWithOutput t = true) :
    variantRowOf cid now (0, t) = some (primaryVariantRow cid now t) := by
  unfold variantRowOf primaryVariantRow
  rw [show isCompleteWithOutput (0, t).2 = true from hc]
  rfl

theorem variantRowOf_head_incomplete (cid : String) (now : Nat) (t : SegRec)
    (hc : isCompleteWithOutput t = false) :
    variantRowOf cid now (0, t) = none := by
  unfold variantRowOf
  rw [show isCompleteWithOutput (0, t).2 = false from hc]
  rfl

theorem enumFrom_variants_not_primary (cid : String) (now : Nat) :
    ∀ (l : List SegRec) (n : Nat), 0 < n →
      ∀ v ∈ (List.enumFrom n l).filterMap (variantRowOf cid now),
        v.isPrimary = false := by
  intro l
  induction l with
  | nil => intro n _ v hv; cases hv
  | cons t rest ih =>
    intro n hn v hv
    rw [List.enumFrom_cons, List.filterMap_cons] at hv
    cases hfc : variantRowOf cid now (n, t) with
    | none =>
      rw [hfc] at hv
      exact ih (n + 1) (Nat.succ_pos n) v hv
    | some v0 =>
      rw [hfc] at hv
      rcases List.mem_cons.mp hv with hv0 | hvrest
      · subst hv0
        obtain ⟨hp, _, _⟩ := variantRowOf_some cid now n t v hfc
        rw [hp]
        cases n with
        | zero => cases hn
        | succ m => rfl
      · exact ih (n + 1) (Nat.succ_pos n) v hvrest

/-- C1 amended theorem: the variant loop marks primary purely by position — at
most one inserted variant is primary; a primary variant can only arise from
the record at position 0 of the newest-first ordering, which must itself be
Complete with output; when the position-0 record is Complete with output, its
variant is primary (and, the group being newest-first, it is the most recent
Complete-with-output record); and when the position-0 record is NOT Complete
with output, no inserted variant is primary at all. -/
theorem variant_primary_positional (cid : String) (ts : List SegRec) (now : Nat) :
    (variantRows cid ts now).countP (fun v => v.isPrimary) ≤ 1
      ∧ (∀ v ∈ variantRows cid ts now, v.isPrimary = true →
          ∃ t, ts.head? = some t ∧ isCompleteWithOutput t = true
            ∧ v.sourceTaskId = t.taskId)
      ∧ (∀ t, ts.head? = some t → isCompleteWithOutput t = true →
          ∃ v, v ∈ variantRows cid ts now ∧ v.isPrimary = true
            ∧ v.sourceTaskId = t.taskId)
      ∧ ((∀ t, ts.head? = some t → isCompleteWithOutput t = false) →
          ∀ v ∈ variantRows cid ts now, v.isPrimary = false) := by
  cases ts with
  | nil =>
    refine ⟨by simp [variantRows], ?_, ?_, ?_⟩
    · intro v hv; cases hv
    · intro t ht; cases ht
    · intro _ v hv; cases hv
  | cons t rest =>
    have htail := enumFrom_variants_not_primary cid now rest 1 Nat.one_pos
    have hz : ((List.enumFrom 1 rest).filterMap (variantRowOf cid now)).countP
        (fun v => v.isPrimary) = 0 := by
      rw [List.countP_eq_zero]
      intro v hv
      rw [htail v hv]
      exact Bool.false_ne_true
    cases hc : isCompleteWithOutput t with
    | true =>
      have hun : variantRows cid (t :: rest) now
          = primaryVariantRow cid now t
            :: (List.enumFrom 1 rest).filterMap (variantRowOf cid now) := by
        unfold variantRows
        rw [List.enum_cons, List.filterMap_cons, variantRowOf_head_complete cid now t hc]
      rw [hun]
      refine ⟨?_, ?_, ?_, ?_⟩
      · rw [List.countP_cons, hz]
        simp [primaryVariantRow]
      · intro v hv hp
        rcases List.mem_cons.mp hv with hv0 | hrest
        · subst hv0
          exact ⟨t, rfl, hc, rfl⟩
        · rw [htail v hrest] at hp
          cases hp
      · intro t0 ht0 _
        have ht9 : t = t0 := Option.some.inj ht0
        subst ht9
        exact ⟨primaryVariantRow cid now t, List.mem_cons_self _ _, rfl, rfl⟩
      · intro hnone
        have h8 := hnone t rfl
        rw [hc] at h8
        cases h8
    | false =>
      have hun : variantRows cid (t :: rest) now
          = (List.enumFrom 1 rest).filterMap (variantRowOf cid now) := by
        unfold variantRows
        rw [List.enum_cons, List.filterMap_cons, variantRowOf_head_incomplete cid now t hc]
      rw [hun]
      refine ⟨?_, ?_, ?_, ?_⟩
      · rw [hz]
        exact Nat.zero_le 1
      · intro v hv hp
        rw [htail v hv] at hp
        cases hp
      · intro t0 ht0 hcomp
        have ht9 : t = t0 := Option.some.inj ht0
        subst ht9
        rw [hc] at hcomp
        cases hcomp
      · intro _ v hv
        exact htail v hv

/-- Witness for `variant_primary_positional`: a one-record Complete group gets
exactly its primary variant. -/
theorem variant_primary_positional_witness :
    (([⟨"w", some "GW", some "o", none, some "Complete", some 5, none⟩]
          : List SegRec).head?
        = some ⟨"w", some "GW", some "o", none, some "Complete", some 5, none⟩
      ∧ isCompleteWithOutput
          ⟨"w", some "GW", some "o", none, some "Complete", some 5, none⟩ = true)
      ∧ ∃ v, v ∈ variantRows "GW"
            [⟨"w", some "GW", some "o", none, some "Complete", some 5, none⟩] 7
          ∧ v.isPrimary = true ∧ v.sourceTaskId = "w" :=
  ⟨⟨rfl, by decide⟩,
    (variant_primary_positional "GW"
        [⟨"w", some "GW", some "o", none, some "Complete", some 5, none⟩] 7).2.2.1
      ⟨"w", some "GW", some "o", none, some "Complete", some 5, none⟩ rfl (by decide)⟩

/-- Two-record group whose newest record failed: only the older Complete
record yields a variant. -/
def newestFailedTasks : List RawTask :=
  [⟨"d", some "Failed", none, some 1202, some 0, some "P", some "pr",
      some "G1", none, none⟩,
   ⟨"e", some "Complete", some "out", some 1201, some 0, none, none,
      none, none, none⟩]

/-- C1 counterexample: this group leads to variant creation (one variant is
inserted, for record `e`, the most-recently-created Complete-with-output
record), yet that variant is marked `is_primary = false` and NO variant is
marked primary — because `is_primary = (i == 0)` keys on the position in the
full newest-first ordering, and position 0 is held by the Failed record `d`,
which yields no variant. -/
theorem variant_primary_counterexample :
    (mainRun newestFailedTasks none false 0 ⟨[], []⟩).map
        (fun r => (r.variantInserts,
          r.store.variants.map fun v => (v.sourceTaskId, v.isPrimary)))
      = some (1, [("e", false)]) := by
  decide

/-! ### Newest-first ordering and canonical-source selection -/

theorem mem_insertDesc (x : SegRec) :
    ∀ (l : List SegRec) (a : SegRec), a ∈ insertDesc x l ↔ a = x ∨ a ∈ l := by
  intro l
  induction l with
  | nil => intro a; simp [insertDesc]
  | cons y ys ih =>
    intro a
    unfold insertDesc
    by_cases hc : segKey y ≤ segKey x
    · rw [if_pos hc]
      simp [List.mem_cons]
    · rw [if_neg hc]
      rw [List.mem_cons, ih a, List.mem_cons]
      tauto

theorem pairwise_insertDesc (x : SegRec) :
    ∀ l : List SegRec, l.Pairwise (fun a b => segKey b ≤ segKey a) →
      (insertDesc x l).Pairwise (fun a b => segKey b ≤ segKey a) := by
  intro l
  induction l with
  | nil => intro _; exact List.pairwise_singleton _ x
  | cons y ys ih =>
    intro h
    unfold insertDesc
    by_cases hc : segKey y ≤ segKey x
    · rw [if_pos hc]
      refine List.Pairwise.cons ?_ h
      intro b hb
      rcases List.mem_cons.mp hb with rfl | hbys
      · exact hc
      · exact le_trans ((List.pairwise_cons.mp h).1 b hbys) hc
    · rw [if_neg hc]
      refine List.Pairwise.cons ?_ (ih (List.pairwise_cons.mp h).2)
      intro b hb
      rcases (mem_insertDesc x ys b).mp hb with rfl | hbys
      · exact le_of_lt (not_le.mp hc)
      · exact (List.pairwise_cons.mp h).1 b hbys

/-- `analyze_tasks`'s per-group sort really is newest-first: descending keys. -/
theorem sortNewestFirst_pairwise :
    ∀ l : List SegRec, (sortNewestFirst l).Pairwise (fun a b => segKey b ≤ segKey a) := by
  intro l
  induction l with
  | nil => exact List.Pairwise.nil
  | cons x xs ih => exact pairwise_insertDesc x (sortNewestFirst xs) ih

/-- On a newest-first list, `find?` returns a satisfying record whose creation
key dominates every satisfying record of the list. -/
theorem find?_newest :
    ∀ l : List SegRec, l.Pairwise (fun a b => segKey b ≤ segKey a) →
      ∀ x, l.find? isCompleteWithOutput = some x →
        isCompleteWithOutput x = true
          ∧ ∀ y ∈ l, isCompleteWithOutput y = true → segKey y ≤ segKey x := by
  intro l
  induction l with
  | nil => intro _ x hx; cases hx
  | cons a as ih =>
    intro hs x hx
    cases hc : isCompleteWithOutput a with
    | true =>
      rw [List.find?_cons_of_pos as hc] at hx
      have h9 := Option.some.inj hx
      subst h9
      refine ⟨hc, ?_⟩
      intro y hy _
      rcases List.mem_cons.mp hy with rfl | hyas
      · exact le_refl _
      · exact (List.pairwise_cons.mp hs).1 y hyas
    | false =>
      rw [List.find?_cons_of_neg as (by rw [hc]; exact Bool.false_ne_true)] at hx
      obtain ⟨hxc, hall⟩ := ih (List.pairwise_cons.mp hs).2 x hx
      refine ⟨hxc, ?_⟩
      intro y hy hyc
      rcases List.mem_cons.mp hy with rfl | hyas
      · rw [hc] at hyc; cases hyc
      · exact hall y hyas hyc

/-- Every segment group produced by `analyze_tasks` is newest-first. -/
theorem analyzeTasks_groups_sorted (tasks : List RawTask) :
    ∀ g ∈ (analyzeTasks tasks).segments,
      g.2.Pairwise (fun a b => segKey b ≤ segKey a) := by
  intro g hg
  have hseg : (analyzeTasks tasks).segments
      = ((tasks.foldl
          (fun (acc : Option String × Option String × List (Nat × List SegRec)) t =>
            match t.segmentIndex with
            | none => acc
            | some i =>
              let parent := match acc.1 with
                | some p => some p
                | none => optStr t.parentGenerationId
              let proj := match acc.2.1 with
                | some p => some p
                | none => optStr t.projectId
              (parent, proj, addToGroup i t.toSegRec acc.2.2))
          (none, none, [])).2.2).map fun g => (g.1, sortNewestFirst g.2) := rfl
  rw [hseg] at hg
  obtain ⟨g0, _, rfl⟩ := List.mem_map.mp hg
  exact sortNewestFirst_pairwise g0.2

/-- The scenario export: three records of segment group 0 — A (12:03, Complete,
output "X"), B (12:02, Failed), C (12:01, Complete, output "Y") — supplied in
scrambled order. -/
def scenarioTasks : List RawTask :=
  [⟨"C", some "Complete", some "Y", some 1201, some 0, none, none, none, none, none⟩,
   ⟨"B", some "Failed", none, some 1202, some 0, none, none, none, none, none⟩,
   ⟨"A", some "Complete", some "X", some 1203, some 0, some "P", some "pr",
      some "G0", none, none⟩]

/-- C8 theorem: the canonical source task is `find?` over the newest-first
group — a Complete-with-output record whose creation key dominates every
Complete-with-output record in the group (general parts); when no such record
exists the segment is skipped; and on the scenario group [A, B, C] the
canonical source is A, two variants are created (A's primary, C's not), and B
yields no variant. -/
theorem canonical_source_selection :
    (∀ tasks : List RawTask, ∀ g ∈ (analyzeTasks tasks).segments,
        ∀ x, g.2.find? isCompleteWithOutput = some x →
          isCompleteWithOutput x = true
            ∧ ∀ y ∈ g.2, isCompleteWithOutput y = true → segKey y ≤ segKey x)
      ∧ (∀ (s : Store) (idx : Nat) (ts : List SegRec) (p : String)
            (pj : Option String) (dr : Bool) (now : Nat) (cid : String),
          resolvedChildId ts = some cid →
          ts.find? isCompleteWithOutput = none →
          recreateChildGeneration s idx ts p pj dr now = ⟨none, .skipNoBest, s, 0, 0⟩)
      ∧ (analyzeTasks scenarioTasks).segments.map (fun g => (g.1, g.2.map SegRec.taskId))
        = [(0, ["A", "B", "C"])]
      ∧ (mainRun scenarioTasks none false 0 ⟨[], []⟩).map RunResult.decisions
        = some [(0, .create "G0" "A" 2)]
      ∧ (mainRun scenarioTasks none false 0 ⟨[], []⟩).map
          (fun r => r.store.variants.map fun v => (v.sourceTaskId, v.isPrimary))
        = some [("A", true), ("C", false)]
      ∧ (mainRun scenarioTasks none false 0 ⟨[], []⟩).map
          (fun r => r.store.gens.map fun g => (g.id, g.location))
        = some [("P", none), ("G0", some "X")]
      ∧ (mainRun scenarioTasks none false 0 ⟨[], []⟩).map
          (fun r => (r.results, r.successCount))
        = some ([(0, some "G0")], 1) := by
  refine ⟨?_, ?_, by decide, by decide, by decide, by decide, by decide⟩
  · intro tasks g hg x hx
    exact find?_newest g.2 (analyzeTasks_groups_sorted tasks g hg) x hx
  · intro s idx ts p pj dr now cid h1 h2
    exact recreateChildGeneration_noBest s idx ts p pj dr now cid h1 h2

/-- Witness for `canonical_source_selection`: its general skip conjunct applied
to a concrete group holding a single Failed record. -/
theorem canonical_source_selection_witness :
    (resolvedChildId [⟨"m", some "GM", none, none, some "Failed", some 3, none⟩]
        = some "GM"
      ∧ ([⟨"m", some "GM", none, none, some "Failed", some 3, none⟩]
          : List SegRec).find? isCompleteWithOutput = none)
      ∧ recreateChildGeneration ⟨[], []⟩ 0
          [⟨"m", some "GM", none, none, some "Failed", some 3, none⟩]
          "P" none false 0
        = ⟨none, .skipNoBest, ⟨[], []⟩, 0, 0⟩ :=
  ⟨⟨by decide, by decide⟩,
    canonical_source_selection.2.1 ⟨[], []⟩ 0
      [⟨"m", some "GM", none, none, some "Failed", some 3, none⟩]
      "P" none false 0 "GM" (by decide) (by decide)⟩

/-- C10 amended theorem: when a segment group resolves a child id that already
exists in the store AND contains at least one Complete-with-output record, the
engine returns that id (counted as recovered) with the store untouched and
zero generation/variant inserts; and variant rows are only ever inserted by
the same (non-dry) call that inserts the child generation itself. -/
theorem existing_generation_reuse :
    (∀ (s : Store) (idx : Nat) (ts : List SegRec) (p : String) (pj : Option String)
        (now : Nat) (cid : String) (b : SegRec),
        resolvedChildId ts = some cid →
        ts.find? isCompleteWithOutput = some b →
        s.genExists cid = true →
        recreateChildGeneration s idx ts p pj false now
          = ⟨some cid, .reuse cid, s, 0, 0⟩)
      ∧ (∀ (s : Store) (idx : Nat) (ts : List SegRec) (p : String)
            (pj : Option String) (dr : Bool) (now : Nat),
          (recreateChildGeneration s idx ts p pj dr now).variantInserts ≠ 0 →
          (recreateChildGeneration s idx ts p pj dr now).genInserts = 1
            ∧ dr = false) := by
  constructor
  · intro s idx ts p pj now cid b h1 h2 h3
    exact recreateChildGeneration_reuse s idx ts p pj false now cid b h1 h2 h3
  · intro s idx ts p pj dr now hv
    cases hr : resolvedChildId ts with
    | none =>
      rw [recreateChildGeneration_noChild s idx ts p pj dr now hr] at hv
      cases hv rfl
    | some cid =>
      cases hf : ts.find? isCompleteWithOutput with
      | none =>
        rw [recreateChildGeneration_noBest s idx ts p pj dr now cid hr hf] at hv
        cases hv rfl
      | some b =>
        cases hg : s.genExists cid with
        | true =>
          rw [recreateChildGeneration_reuse s idx ts p pj dr now cid b hr hf hg] at hv
          cases hv rfl
        | false =>
          cases dr with
          | true =>
            rw [recreateChildGeneration_createDry s idx ts p pj now cid b hr hf hg] at hv
            cases hv rfl
          | false =>
            rw [recreateChildGeneration_createReal s idx ts p pj now cid b hr hf hg]
            exact ⟨rfl, rfl⟩

/-- A pre-existing child generation row with id `G2`. -/
def c10Gen : GenRow :=
  { id := "G2", projectId := some "pr", genType := "video", isChild := true,
    parentGenerationId := some "P", childOrder := some 0, location := some "z",
    thumbnailUrl := none, createdAt := 0, createdFrom := "x", segmentIndex := none,
    pairShotGenerationId := none }

/-- An export whose single segment group resolves child id `G2` but has no
Complete-with-output record. -/
def c10Tasks : List RawTask :=
  [⟨"f", some "Failed", none, some 1202, some 0, some "P", some "pr",
      some "G2", none, none⟩]

/-- C10 counterexample: the group's resolved child generation id `G2` already
exists in the store, yet the engine does NOT return it — the
no-completed-task-with-output skip fires before the existence check, the
segment result is `none` and the tally counts 0 recovered (the claim asserts
the id is returned and the segment counted as recovered for EVERY group whose
resolved id exists). -/
theorem existing_generation_counterexample :
    (Store.mk [c10Gen] []).genExists "G2" = true
      ∧ (mainRun c10Tasks none false 0 ⟨[c10Gen], []⟩).map
          (fun r => (r.results, r.successCount, r.variantInserts))
        = some ([(0, none)], 0, 0) := by
  refine ⟨by decide, by decide⟩

/-- A one-record Complete-with-output group resolving child id `GK`. -/
def c10ReuseRec : SegRec :=
  ⟨"k", some "GK", some "o", none, some "Complete", some 7, none⟩

/-- A store already holding the child generation `GK`. -/
def c10ReuseStore : Store := ⟨[childGenRow "GK" 0 "P" none c10ReuseRec 0], []⟩

/-- Witness for `existing_generation_reuse` at a concrete one-record group
whose child generation already exists. -/
theorem existing_generation_reuse_witness :
    (resolvedChildId [c10ReuseRec] = some "GK"
      ∧ ([c10ReuseRec] : List SegRec).find? isCompleteWithOutput = some c10ReuseRec
      ∧ c10ReuseStore.genExists "GK" = true)
      ∧ recreateChildGeneration c10ReuseStore 0 [c10ReuseRec] "P" none false 0
        = ⟨some "GK", .reuse "GK", c10ReuseStore, 0, 0⟩ :=
  ⟨⟨by decide, by decide, by decide⟩,
    existing_generation_reuse.1 c10ReuseStore 0 [c10ReuseRec] "P" none 0 "GK"
      c10ReuseRec (by decide) (by decide) (by decide)⟩
